import Mathlib

/-!
# Boxing adapter (`ATen/core/boxing/impl/boxing.h`)

A shallow embedding of the compile-time classification of operator signatures
and of the run-time call paths of `c10::impl::BoxedKernelWrapper`,
`callBoxedFunc` and `boxArgumentsOrCannotBoxIntoStack`.

* C++ types are terms of `CType`; the type traits of the header are boolean
  functions on `CType`.
* `c10::IValue` is declared in `ATen/core/ivalue.h`, which is not part of the
  fragment.  What the header needs from it is taken as a parameter:
  `IValueTraits` (which types it can be constructed from / converted to) and
  `IValueOps` (the conversions themselves).
* `torch::jit::Stack` is `std::vector<IValue>`: a list whose back is the end
  of the list; `stack[0]` is the head.
* The boxed kernel is a callback that mutates the stack it is handed:
  a function from the stack before to the stack after.
-/

namespace Boxing

/-! ## C++ types -/

mutual
/-- The C++ types that occur in operator signatures.  `lref t` is `t&`,
`rref t` is `t&&`, `const t` is `const t`; `named n` is any other class or
builtin type. -/
inductive CType where
  | void
  | bool
  | int64
  | double
  | string
  | tensor
  | scalar
  | tensorOptions
  | dimname
  | quantizer
  | arrayRef (t : CType)
  | optional (t : CType)
  | intrusive_ptr (t : CType)
  | tuple (ts : CTypes)
  | lref (t : CType)
  | rref (t : CType)
  | const (t : CType)
  | named (n : String)
  deriving DecidableEq
/-- A template parameter pack of types (the element types of a `std::tuple`). -/
inductive CTypes where
  | nil
  | cons (t : CType) (ts : CTypes)
  deriving DecidableEq
end

/-- The elements of a pack, in order. -/
def CTypes.toList : CTypes → List CType
  | .nil => []
  | .cons t ts => t :: ts.toList

/-- The pack with the given elements. -/
def CTypes.ofList : List CType → CTypes
  | [] => .nil
  | t :: ts => .cons t (CTypes.ofList ts)

/-- The type `c10::IntArrayRef`, an alias of `c10::ArrayRef<int64_t>`. -/
def IntArrayRef : CType := .arrayRef .int64

/-- The type `at::Tensor&`. -/
def TensorRef : CType := .lref .tensor

/-- An operator signature `Result(Args...)`. -/
structure Signature where
  result : CType
  args : List CType
  deriving DecidableEq

/-! ## Standard type traits -/

/-- The trait `std::is_lvalue_reference<T>`. -/
def is_lvalue_reference : CType → Bool
  | .lref _ => true
  | _ => false

/-- The trait `std::remove_reference_t<T>`. -/
def remove_reference : CType → CType
  | .lref t => t
  | .rref t => t
  | t => t

/-- The trait `std::remove_cv_t<T>`: drops a top-level qualifier. -/
def remove_cv : CType → CType
  | .const t => t
  | t => t

/-- The trait `std::decay_t<T>` on the types of `CType` (no array or function
types): the referred-to type without its top-level qualifier. -/
def decay (t : CType) : CType := remove_cv (remove_reference t)

/-! ## The interface of `c10::IValue` -/

/-- What the header asks the compiler about `c10::IValue`. -/
structure IValueTraits where
  /-- The trait `std::is_constructible<IValue, T>`. -/
  is_constructible : CType → Bool
  /-- Whether `std::declval<IValue>().to<T>()` is a well-formed expression. -/
  to_wellformed : CType → Bool

/-! ## utils (boxing.h 21-43) -/

/-- The trait `is_tensor_ref<T>`: true for `at::Tensor&` only. -/
def is_tensor_ref (t : CType) : Bool := t == TensorRef

/-- The trait `guts::typelist::all<is_tensor_ref, ...>` over a pack. -/
def all_tensor_refs : CTypes → Bool
  | .nil => true
  | .cons t ts => is_tensor_ref t && all_tensor_refs ts

/-- The trait `is_tuple_of_tensor_refs<T>`: `T` is an instantiation of
`std::tuple` and every element type is `at::Tensor&`. -/
def is_tuple_of_tensor_refs : CType → Bool
  | .tuple ts => all_tensor_refs ts
  | _ => false

/-- The trait `has_ivalue_to<T>`. -/
def has_ivalue_to (tr : IValueTraits) (t : CType) : Bool := tr.to_wellformed t

/-! ## boxing predicates (boxing.h 53-100) -/

/-- The trait `ok_to_box<T>`. -/
def ok_to_box (tr : IValueTraits) (t : CType) : Bool :=
  tr.is_constructible t || t == CType.tensorOptions || t == CType.void

/-- The trait `supports_boxing_result<Result>`. -/
def supports_boxing_result (tr : IValueTraits) (r : CType) : Bool :=
  !(is_lvalue_reference r || !(ok_to_box tr r) || r == IntArrayRef)

/-- The trait `can_box<T>`. -/
def can_box (tr : IValueTraits) (t : CType) : Bool :=
  tr.is_constructible t || t == CType.tensorOptions

/-- The trait `can_box_all<Ts...>`: every decayed type is `can_box`. -/
def can_box_all (tr : IValueTraits) (ts : List CType) : Bool :=
  ts.all (fun t => can_box tr (decay t))

/-- The trait `can_unbox<T>`. -/
def can_unbox (tr : IValueTraits) (t : CType) : Bool :=
  (has_ivalue_to tr t || t == CType.void) && !(is_lvalue_reference t)

/-- The trait `has_dimname_arg<Args...>`. -/
def has_dimname_arg (args : List CType) : Bool :=
  args.any (fun a => decay a == CType.dimname)
    || args.any (fun a => decay a == CType.arrayRef CType.dimname)
    || args.any (fun a => decay a == CType.optional (CType.arrayRef CType.dimname))

/-- The trait `supports_boxing<Result, Args...>`. -/
def supports_boxing (tr : IValueTraits) (r : CType) (args : List CType) : Bool :=
  supports_boxing_result tr r && args.all (fun a => ok_to_box tr (decay a))

/-- The trait `has_quantizer_arg<Args...>`. -/
def has_quantizer_arg (args : List CType) : Bool :=
  args.any (fun a => decay a == CType.quantizer)
    || args.any (fun a => decay a == CType.intrusive_ptr CType.quantizer)

/-- What the header says of the dimension-name family ("unboxable parameter
type at::Dimname", boxing.h 125-131 and 200), as a condition on the table:
none of the three types of `has_dimname_arg` is `can_box`. -/
def dimname_unboxable (tr : IValueTraits) : Bool :=
  !(can_box tr CType.dimname) && !(can_box tr (CType.arrayRef CType.dimname))
    && !(can_box tr (CType.optional (CType.arrayRef CType.dimname)))

/-- What the header says of the quantizer family ("unboxable parameter type
at::Quantizer", boxing.h 125-131 and 233), as a condition on the table:
neither of the two types of `has_quantizer_arg` is `can_box`. -/
def quantizer_unboxable (tr : IValueTraits) : Bool :=
  !(can_box tr CType.quantizer) && !(can_box tr (CType.intrusive_ptr CType.quantizer))

/-! ## Partial specializations of `BoxedKernelWrapper` -/

/-- The partial specializations of `BoxedKernelWrapper` declared by the header,
in declaration order. -/
inductive Specialization where
  | dimnameTrap
  | quantizerTrap
  | standard
  | singleRef
  | tupleOfRefs
  deriving DecidableEq, Repr

/-- The enabling condition of each partial specialization at a signature:
the pattern of its first template argument matches and its `enable_if`
condition holds. -/
def enabled (tr : IValueTraits) (sig : Signature) : Specialization → Bool
  | .dimnameTrap => has_dimname_arg sig.args
  | .quantizerTrap => has_quantizer_arg sig.args
  | .standard =>
      can_box_all tr sig.args && can_unbox tr sig.result
        && !(is_tuple_of_tensor_refs sig.result)
  | .singleRef =>
      match sig.args with
      | [] => false
      | first :: otherArgs =>
          first == sig.result
            && (can_box_all tr (sig.result :: otherArgs) && is_tensor_ref sig.result)
  | .tupleOfRefs =>
      can_box_all tr sig.args && is_tuple_of_tensor_refs sig.result

/-- All specializations, in declaration order. -/
def allSpecializations : List Specialization :=
  [.dimnameTrap, .quantizerTrap, .standard, .singleRef, .tupleOfRefs]

/-- The specializations whose enabling condition holds at a signature. -/
def matching (tr : IValueTraits) (sig : Signature) : List Specialization :=
  allSpecializations.filter (enabled tr sig)

/-- The specialization a signature instantiates.  The header gives the
specializations no order of precedence: a signature uses a specialization
when that is the only one enabled.  With none enabled the base definition,
which has no `call`, is used; with several the instantiation is ambiguous.
Both are build errors (`none`). -/
def select (tr : IValueTraits) (sig : Signature) : Option Specialization :=
  match matching tr sig with
  | [s] => some s
  | _ => none

/-! ## Values, stacks and boxed kernels -/

/-- The conversions of `c10::IValue` the header calls.  `V` is the universe of
native (unboxed) C++ values. -/
structure IValueOps (IValue V : Type) where
  /-- The constructor call `IValue(v)` for `v` of static type `T`, as made by
  `stack.emplace_back(v)`. -/
  construct : CType → V → IValue
  /-- The extraction `std::move(iv).to<T>()`. -/
  extract : CType → IValue → V
  /-- The value `IValue(s)` for a string literal `s`. -/
  ofString : String → IValue

/-- A typed argument: its declared type and its value. -/
structure Arg (V : Type) where
  ty : CType
  val : V

/-- A failed `TORCH_INTERNAL_ASSERT`: the fatal internal-consistency failure,
with the message of the assertion.  The macro (`c10/util/Exception.h`) is not
part of the fragment; an assertion whose condition is false ends the call with
this failure, and one whose condition is true does nothing. -/
structure InternalAssertFailure where
  msg : String
  deriving DecidableEq, Repr

/-- An operation performed on a stack: a value appended at the back, or the
boxed kernel called with the stack (contents before and after the call). -/
inductive Event (IValue : Type) where
  | push (v : IValue)
  | invoke (before after : List IValue)

/-- A `torch::jit::Stack` (a `std::vector<IValue>`, front first) together with
the log of the operations performed on it so far. -/
structure Frame (IValue : Type) where
  stack : List IValue
  trace : List (Event IValue)

/-- The declaration `torch::jit::Stack stack;`: a new, empty stack. -/
def Frame.empty {IValue : Type} : Frame IValue := { stack := [], trace := [] }

/-- The type `KernelFunction::InternalBoxedKernelFunction`: called with the
functor (`K`), the operator handle (`H`) and a pointer to the stack, which it
mutates. -/
abbrev InternalBoxedKernelFunction (K H IValue : Type) : Type :=
  K → H → List IValue → List IValue

/-- What a call did and how it ended: the operations performed on the stack,
and either the returned value or the failed assertion. -/
structure Run (IValue α : Type) where
  trace : List (Event IValue)
  outcome : Except InternalAssertFailure α

/-- A returned value: nothing (`void`), one value, or a `std::tuple`. -/
inductive Ret (V : Type) where
  | void
  | value (v : V)
  | tuple (vs : List V)

section Paths

variable {IValue V K H : Type}

/-- Modelled from the spec: `torch::jit::push_one` (declared in
`ATen/core/stack.h`, not part of the fragment) appends one Uniform Value built
from the value at the back of the stack. -/
def push_one (ops : IValueOps IValue V) (fr : Frame IValue) (ty : CType) (v : V) :
    Frame IValue :=
  { stack := fr.stack ++ [ops.construct ty v]
    trace := fr.trace ++ [Event.push (ops.construct ty v)] }

/-- Modelled from the spec: `torch::jit::push(stack, args...)` (declared in
`ATen/core/stack.h`, not part of the fragment) is `push_one` on each argument,
left to right. -/
def push (ops : IValueOps IValue V) (fr : Frame IValue) (args : List (Arg V)) :
    Frame IValue :=
  args.foldl (fun fr a => push_one ops fr a.ty a.val) fr

/-- Modelled from the spec: `torch::jit::push(stack, "cannot box")` appends the
Uniform Value of the string literal, the "cannot box" marker. -/
def push_literal (ops : IValueOps IValue V) (fr : Frame IValue) (s : String) :
    Frame IValue :=
  { stack := fr.stack ++ [ops.ofString s]
    trace := fr.trace ++ [Event.push (ops.ofString s)] }

/-- The statement `(*boxed_kernel_func)(functor, opHandle, &stack);`. -/
def invoke (boxed_kernel_func : InternalBoxedKernelFunction K H IValue)
    (functor : K) (opHandle : H) (fr : Frame IValue) : Frame IValue :=
  { stack := boxed_kernel_func functor opHandle fr.stack
    trace := fr.trace ++
      [Event.invoke fr.stack (boxed_kernel_func functor opHandle fr.stack)] }

/-- The two overloads of `pushIValueOrCannotBox(stack, v)` (boxing.h 149-158).
`T` is deduced from the parameter `const T& v`: the type of the argument
without reference and qualifier. -/
def pushIValueOrCannotBox (tr : IValueTraits) (ops : IValueOps IValue V)
    (stack : Frame IValue) (v : Arg V) : Bool × Frame IValue :=
  if !(ok_to_box tr (decay v.ty)) then
    (false, push_literal ops stack "cannot box")
  else
    (true, push_one ops stack (decay v.ty) v.val)

/-- The three overloads of `boxArgumentsOrCannotBoxIntoStack`
(boxing.h 160-174): no item, one item, an item and a non-empty rest. -/
def boxArgumentsOrCannotBoxIntoStack (tr : IValueTraits) (ops : IValueOps IValue V) :
    Frame IValue → List (Arg V) → Bool × Frame IValue
  | stack, [] => (true, stack)
  | stack, [item] => pushIValueOrCannotBox tr ops stack item
  | stack, item :: other_items =>
      let res := pushIValueOrCannotBox tr ops stack item
      let rest := boxArgumentsOrCannotBoxIntoStack tr ops res.2 other_items
      (rest.1 && res.1, rest.2)

/-- The three overloads of `callBoxedFunc<Result>` (boxing.h 176-195), chosen
by `supports_boxing_result<Result>` and by whether `Result` is `void`. -/
def callBoxedFunc (tr : IValueTraits) (ops : IValueOps IValue V) (result : CType)
    (boxed_kernel_func : InternalBoxedKernelFunction K H IValue)
    (functor : K) (opHandle : H) (stack : Frame IValue) : Run IValue (Ret V) :=
  if !(supports_boxing_result tr result) then
    { trace := stack.trace
      outcome := .error ⟨"Tried to call KernelFunction::callBoxedFunc() but return result cannot be boxed"⟩ }
  else if !(result == CType.void) then
    let stack := invoke boxed_kernel_func functor opHandle stack
    if h : stack.stack.length = 1 then
      { trace := stack.trace
        outcome := .ok (Ret.value (ops.extract result (stack.stack.get ⟨0, by omega⟩))) }
    else
      { trace := stack.trace
        outcome := .error ⟨"A boxed kernel should only push one return to the stack"⟩ }
  else
    let stack := invoke boxed_kernel_func functor opHandle stack
    if stack.stack.length = 0 then
      { trace := stack.trace, outcome := .ok Ret.void }
    else
      { trace := stack.trace
        outcome := .error ⟨"A boxed kernel returned a value but when we called it with KernelFunction::callBoxedFunc(), we expected it to return void."⟩ }

/-- The stack of the caller, passed by reference to `callBoxedFunc<Result>`,
when the call is left (by return or by the failed assertion): untouched in the
overload for unsupported results, as the boxed kernel left it in the other two
(the contents of slot 0 after `std::move(stack[0])` are those before it). -/
def callBoxedFunc_stack (tr : IValueTraits) (result : CType)
    (boxed_kernel_func : InternalBoxedKernelFunction K H IValue)
    (functor : K) (opHandle : H) (stack : Frame IValue) : Frame IValue :=
  if !(supports_boxing_result tr result) then stack
  else invoke boxed_kernel_func functor opHandle stack

/-- The two overloads of `boxAndCallBoxedFunc<Result, Args...>`
(boxing.h 216-224 and 244-252), both enabled by `supports_boxing`; they differ
in returning the value of `callBoxedFunc` or nothing.  The value is `none`
when neither overload is enabled. -/
def boxAndCallBoxedFunc (tr : IValueTraits) (ops : IValueOps IValue V) (result : CType)
    (boxed_kernel_func : InternalBoxedKernelFunction K H IValue)
    (functor : K) (opHandle : H) (args : List (Arg V)) : Option (Run IValue (Ret V)) :=
  if supports_boxing tr result (args.map Arg.ty) then
    let stack : Frame IValue := Frame.empty
    let stack := push ops stack args
    some (callBoxedFunc tr ops result boxed_kernel_func functor opHandle stack)
  else none

/-- The method `call` of the `has_dimname_arg` specialization (boxing.h 197-202). -/
def call_dimnameTrap : Run IValue (Ret V) :=
  { trace := []
    outcome := .error ⟨"Call to a boxed kernel with unboxable parameter type at::Dimname."⟩ }

/-- The method `call` of the `has_quantizer_arg` specialization (boxing.h 230-235). -/
def call_quantizerTrap : Run IValue (Ret V) :=
  { trace := []
    outcome := .error ⟨"Unboxed call to a boxed kernel with unboxable parameter type at::Quantizer."⟩ }

/-- The method `call` of the specialization for supported signatures other
than ref-passing (boxing.h 258-295).  The call `stack.reserve` changes the
capacity only. -/
def call_standard (ops : IValueOps IValue V) (result : CType)
    (boxed_kernel_func : InternalBoxedKernelFunction K H IValue)
    (functor : K) (opHandle : H) (args : List (Arg V)) : Run IValue (Ret V) :=
  let stack : Frame IValue := Frame.empty
  let stack := push ops stack args
  let stack := invoke boxed_kernel_func functor opHandle stack
  if !(result == CType.void) then
    if h : stack.stack.length = 1 then
      { trace := stack.trace
        outcome := .ok (Ret.value (ops.extract result (stack.stack.get ⟨0, by omega⟩))) }
    else
      { trace := stack.trace
        outcome := .error ⟨"Boxed kernel was expected to push exactly one return value to the stack."⟩ }
  else
    if stack.stack.length = 0 then
      { trace := stack.trace, outcome := .ok Ret.void }
    else
      { trace := stack.trace
        outcome := .error ⟨"Boxed kernel for op with void return type pushed one or more return values to the stack."⟩ }

/-- The method `call` of the specialization for signatures returning a single
reference of the same type as their initial argument (boxing.h 304-329). -/
def call_singleRef (ops : IValueOps IValue V)
    (boxed_kernel_func : InternalBoxedKernelFunction K H IValue)
    (functor : K) (opHandle : H) (outArg : Arg V) (otherArgs : List (Arg V)) :
    Run IValue (Ret V) :=
  let stack : Frame IValue := Frame.empty
  let stack := push_one ops stack outArg.ty outArg.val
  let stack := push ops stack otherArgs
  let stack := invoke boxed_kernel_func functor opHandle stack
  { trace := stack.trace, outcome := .ok (Ret.value outArg.val) }

/-- The constant `std::tuple_size<Result>()`. -/
def tuple_size : CType → Nat
  | .tuple ts => ts.toList.length
  | _ => 0

/-- Modelled from the spec: `guts::tuple_take<ArgTuple, n>` (declared in
`c10/util/Metaprogramming.h`, not part of the fragment) takes the first `n`
elements of the argument tuple; the header says the same of this `call`
(boxing.h 331-334: it returns a tuple of the initial arguments). -/
def tuple_take {α : Type} (n : Nat) (args : List α) : List α := args.take n

/-- The `static_assert` in the tuple-of-references `call` (boxing.h 357-364):
`Result` is the type of the tuple of the first `n` arguments. -/
def tuple_static_assert (result : CType) (args : List CType) : Bool :=
  result == CType.tuple (CTypes.ofList (tuple_take (tuple_size result) args))

/-- The method `call` of the specialization for signatures returning a tuple
of Tensor references (boxing.h 336-367). -/
def call_tupleOfRefs (ops : IValueOps IValue V) (result : CType)
    (boxed_kernel_func : InternalBoxedKernelFunction K H IValue)
    (functor : K) (opHandle : H) (args : List (Arg V)) : Run IValue (Ret V) :=
  let stack : Frame IValue := Frame.empty
  let stack := push ops stack args
  let stack := invoke boxed_kernel_func functor opHandle stack
  let n := tuple_size result
  let result := tuple_take n (args.map Arg.val)
  { trace := stack.trace, outcome := .ok (Ret.tuple result) }

/-- The call `BoxedKernelWrapper<Result(Args...)>::call(boxed_kernel_func,
functor, opHandle, args...)`: the `call` of the specialization the signature
instantiates.  The value is `none` when the program does not build: no
specialization or several are enabled, or the `static_assert` of the
tuple-of-references `call` fails. -/
def BoxedKernelWrapper.call (tr : IValueTraits) (ops : IValueOps IValue V)
    (result : CType) (boxed_kernel_func : InternalBoxedKernelFunction K H IValue)
    (functor : K) (opHandle : H) (args : List (Arg V)) :
    Option (Run IValue (Ret V)) :=
  match select tr { result := result, args := args.map Arg.ty } with
  | none => none
  | some .dimnameTrap => some call_dimnameTrap
  | some .quantizerTrap => some call_quantizerTrap
  | some .standard => some (call_standard ops result boxed_kernel_func functor opHandle args)
  | some .singleRef =>
      match args with
      | [] => none
      | outArg :: otherArgs =>
          some (call_singleRef ops boxed_kernel_func functor opHandle outArg otherArgs)
  | some .tupleOfRefs =>
      if tuple_static_assert result (args.map Arg.ty) then
        some (call_tupleOfRefs ops result boxed_kernel_func functor opHandle args)
      else none

/-- The stack `torch::jit::push` builds from an argument list: one Uniform
Value per argument, in argument order. -/
def boxedArgs (ops : IValueOps IValue V) (args : List (Arg V)) : List IValue :=
  args.map (fun a => ops.construct a.ty a.val)

/-- The boxed form of a typed kernel `f` of signature `Result(Args...)`: it
unboxes the arguments from the stack by position, applies `f`, and leaves
exactly the boxed result, or nothing when `f` returns nothing. -/
def boxedFormOf (ops : IValueOps IValue V) (result : CType) (argTys : List CType)
    (f : List V → Option V) : InternalBoxedKernelFunction K H IValue :=
  fun _ _ stack =>
    match f (List.zipWith (fun ty iv => ops.extract ty iv) argTys stack) with
    | some r => [ops.construct result r]
    | none => []

/-- The stack the boxed kernel leaves when called on the boxed arguments. -/
def stackAfter (ops : IValueOps IValue V)
    (boxed_kernel_func : InternalBoxedKernelFunction K H IValue)
    (functor : K) (opHandle : H) (args : List (Arg V)) : List IValue :=
  boxed_kernel_func functor opHandle (boxedArgs ops args)

/-- The entry `boxArgumentsOrCannotBoxIntoStack` is to leave on the stack for
an argument: the boxed value when its type is `ok_to_box`, otherwise the
"cannot box" string. -/
def stackEntry (tr : IValueTraits) (ops : IValueOps IValue V) (v : Arg V) : IValue :=
  if ok_to_box tr (decay v.ty) then ops.construct (decay v.ty) v.val
  else ops.ofString "cannot box"

/-- The result of a typed kernel as a returned value. -/
def Ret.ofOption : Option V → Ret V
  | none => Ret.void
  | some r => Ret.value r

end Paths

/-! ## A concrete Uniform Value, for evaluating the call paths -/

/-- A small tagged union standing for `c10::IValue`. -/
inductive SampleIValue where
  | none
  | int (n : Int)
  | tensor (id : Nat)
  | string (s : String)
  deriving DecidableEq, Repr

/-- Native values: integers and tensors.  A tensor is known by its identity,
which is what a `Tensor&` refers to. -/
inductive SampleVal where
  | int (n : Int)
  | tensor (id : Nat)
  deriving DecidableEq, Repr

/-- Conversions between `SampleVal` and `SampleIValue`. -/
def sampleOps : IValueOps SampleIValue SampleVal where
  construct := fun _ v =>
    match v with
    | .int n => .int n
    | .tensor id => .tensor id
  extract := fun _ iv =>
    match iv with
    | .int n => .int n
    | .tensor id => .tensor id
    | _ => .int 0
  ofString := fun s => .string s

/-- A table of traits in which `IValue` has constructors for the scalar types,
strings, tensors, optional tensors and arrays of tensors, and `to<T>` is
declared for every `T`. -/
def sampleTraits : IValueTraits where
  is_constructible := fun t =>
    match t with
    | .bool | .int64 | .double | .string | .tensor | .scalar => true
    | .optional .tensor => true
    | .arrayRef .tensor => true
    | _ => false
  to_wellformed := fun _ => true

/-- A boxed kernel that pops everything and pushes nothing. -/
def clearingKernel : InternalBoxedKernelFunction Unit Unit SampleIValue :=
  fun _ _ _ => []

/-- A boxed kernel that leaves its arguments on the stack. -/
def idleKernel : InternalBoxedKernelFunction Unit Unit SampleIValue :=
  fun _ _ stack => stack

/-- A boxed kernel that replaces the stack by one tensor. -/
def oneTensorKernel (id : Nat) : InternalBoxedKernelFunction Unit Unit SampleIValue :=
  fun _ _ _ => [.tensor id]

/-- The type `std::tuple<Tensor&, Tensor&>`. -/
def TensorRefPair : CType := CType.tuple (.cons TensorRef (.cons TensorRef .nil))

/-- Arguments of a call `add_(Tensor&, Tensor)`. -/
def addInplaceArgs : List (Arg SampleVal) :=
  [{ ty := TensorRef, val := .tensor 7 }, { ty := .tensor, val := .tensor 8 }]

/-- Arguments of a call `add(Tensor, Tensor)`. -/
def addArgs : List (Arg SampleVal) :=
  [{ ty := .tensor, val := .tensor 3 }, { ty := .tensor, val := .tensor 4 }]

/-- Arguments of a call with two out-references and an integer. -/
def twoOutArgs : List (Arg SampleVal) :=
  [{ ty := TensorRef, val := .tensor 1 }, { ty := TensorRef, val := .tensor 2 },
    { ty := .int64, val := .int 5 }]

/-- Arguments of a call with a tensor and an array of dimension names. -/
def dimnameArgs : List (Arg SampleVal) :=
  [{ ty := .tensor, val := .tensor 3 },
    { ty := .arrayRef .dimname, val := .int 0 }]

/-- A typed kernel for `add(Tensor, Tensor) -> Tensor`: the identity of the
result tensor is the sum of the identities of its arguments. -/
def addKernel : List SampleVal → Option SampleVal
  | [.tensor a, .tensor b] => some (.tensor (a + b))
  | _ => some (.tensor 0)

/-- Arguments of which the second has a type `IValue` has no constructor for. -/
def generatorArgs : List (Arg SampleVal) :=
  [{ ty := .tensor, val := .tensor 3 }, { ty := .named "Generator", val := .int 0 },
    { ty := .int64, val := .int 5 }]

/-- The signature `Tensor&(const Tensor&, Tensor&)`: an out-variant whose
reference parameter comes last. -/
def outLastSig : Signature :=
  { result := TensorRef, args := [.lref (.const .tensor), TensorRef] }

/-- Arguments of a call with a tensor and a quantizer handle. -/
def quantizerArgs : List (Arg SampleVal) :=
  [{ ty := .tensor, val := .tensor 3 },
    { ty := .intrusive_ptr .quantizer, val := .int 0 }]

/-- Arguments of a call with a tensor, a dimension name and a quantizer handle. -/
def dimnameQuantizerArgs : List (Arg SampleVal) :=
  [{ ty := .tensor, val := .tensor 3 }, { ty := .dimname, val := .int 0 },
    { ty := .intrusive_ptr .quantizer, val := .int 0 }]

/-- The type `std::tuple<Tensor&>`. -/
def TensorRefSingle : CType := CType.tuple (.cons TensorRef .nil)

/-- Arguments of a call with a single dimension name. -/
def oneDimnameArgs : List (Arg SampleVal) :=
  [{ ty := .dimname, val := .int 0 }]

/-- Arguments of a call with one out-reference and an integer. -/
def oneOutArgs : List (Arg SampleVal) :=
  [{ ty := TensorRef, val := .tensor 1 }, { ty := .int64, val := .int 5 }]

/-! ## Lemmas on stacks -/

section Lemmas

variable {IValue V K H : Type}

theorem push_stack (ops : IValueOps IValue V) (args : List (Arg V)) (fr : Frame IValue) :
    (push ops fr args).stack = fr.stack ++ boxedArgs ops args := by
  induction args generalizing fr with
  | nil => simp [push, boxedArgs]
  | cons a rest ih =>
    have h := ih (push_one ops fr a.ty a.val)
    simp only [push, List.foldl_cons] at h ⊢
    rw [h]
    simp [push_one, boxedArgs]

theorem push_trace (ops : IValueOps IValue V) (args : List (Arg V)) (fr : Frame IValue) :
    (push ops fr args).trace = fr.trace ++ (boxedArgs ops args).map Event.push := by
  induction args generalizing fr with
  | nil => simp [push, boxedArgs]
  | cons a rest ih =>
    have h := ih (push_one ops fr a.ty a.val)
    simp only [push, List.foldl_cons] at h ⊢
    rw [h]
    simp [push_one, boxedArgs]

theorem boxedArgs_length (ops : IValueOps IValue V) (args : List (Arg V)) :
    (boxedArgs ops args).length = args.length := by
  simp [boxedArgs]

theorem select_eq_some_enabled (tr : IValueTraits) (sig : Signature) (s : Specialization)
    (h : select tr sig = some s) : enabled tr sig s = true := by
  unfold select at h
  split at h
  · rename_i s0 hm
    have hs : s0 = s := by simpa using h
    subst hs
    have hmem : s0 ∈ matching tr sig := by rw [hm]; simp
    unfold matching at hmem
    exact (List.mem_filter.mp hmem).2
  · simp at h

theorem enabled_singleRef_shape (tr : IValueTraits) (result : CType) (args : List CType)
    (h : enabled tr { result := result, args := args } .singleRef = true) :
    result = TensorRef ∧ ∃ otherArgs, args = TensorRef :: otherArgs := by
  unfold enabled at h
  cases args with
  | nil => simp at h
  | cons first otherArgs =>
    simp only [Bool.and_eq_true, beq_iff_eq, is_tensor_ref] at h
    obtain ⟨h1, _, h3⟩ := h
    exact ⟨h3, otherArgs, by rw [h1, h3]⟩

theorem CTypes.ofList_toList : (ts : CTypes) → CTypes.ofList ts.toList = ts
  | .nil => rfl
  | .cons t ts => by
    simp only [CTypes.toList, CTypes.ofList, CTypes.cons.injEq, true_and]
    exact CTypes.ofList_toList ts

theorem all_tensor_refs_toList : (ts : CTypes) → all_tensor_refs ts = true →
    ts.toList = List.replicate ts.toList.length TensorRef
  | .nil, _ => rfl
  | .cons t ts, h => by
    simp only [all_tensor_refs, Bool.and_eq_true, is_tensor_ref, beq_iff_eq] at h
    simp only [CTypes.toList, List.length_cons, List.replicate_succ, List.cons.injEq]
    exact ⟨h.1, all_tensor_refs_toList ts h.2⟩

theorem take_eq_replicate {α : Type} (l : List α) (n : Nat) (x : α)
    (h : ∀ i, i < n → l[i]? = some x) : l.take n = List.replicate n x := by
  induction n generalizing l with
  | zero => simp
  | succ n ih =>
    cases l with
    | nil => simpa using h 0 (by omega)
    | cons a rest =>
      have h0 := h 0 (by omega)
      simp only [List.getElem?_cons_zero, Option.some.injEq] at h0
      simp only [List.take_succ_cons, List.replicate_succ, List.cons.injEq]
      refine ⟨h0, ih rest ?_⟩
      intro i hi
      have := h (i + 1) (by omega)
      simpa using this

theorem tuple_static_assert_of_refs (result : CType) (args : List CType)
    (htup : is_tuple_of_tensor_refs result = true)
    (hrefs : ∀ i, i < tuple_size result → args[i]? = some TensorRef) :
    tuple_static_assert result args = true := by
  cases result with
  | tuple ts =>
    simp only [is_tuple_of_tensor_refs] at htup
    simp only [tuple_size] at hrefs
    simp only [tuple_static_assert, tuple_size, tuple_take, beq_iff_eq]
    rw [take_eq_replicate args _ TensorRef hrefs, ← all_tensor_refs_toList ts htup,
      CTypes.ofList_toList]
  | _ => simp [is_tuple_of_tensor_refs] at htup

theorem get_zero_of_eq_singleton {α : Type} (l : List α) (v : α) (h : 0 < l.length)
    (hl : l = [v]) : l.get ⟨0, h⟩ = v := by
  subst hl
  rfl

theorem push_empty_stack (ops : IValueOps IValue V) (args : List (Arg V)) :
    (push ops Frame.empty args).stack = boxedArgs ops args := by
  simp [push_stack, Frame.empty]

theorem push_empty_trace (ops : IValueOps IValue V) (args : List (Arg V)) :
    (push ops Frame.empty args).trace = (boxedArgs ops args).map Event.push := by
  simp [push_trace, Frame.empty]

theorem call_standard_trace (ops : IValueOps IValue V) (result : CType)
    (boxed_kernel_func : InternalBoxedKernelFunction K H IValue)
    (functor : K) (opHandle : H) (args : List (Arg V)) :
    (call_standard ops result boxed_kernel_func functor opHandle args).trace =
      (boxedArgs ops args).map Event.push ++
        [Event.invoke (boxedArgs ops args)
          (stackAfter ops boxed_kernel_func functor opHandle args)] := by
  unfold call_standard
  simp only [invoke, push_empty_stack, push_empty_trace, stackAfter]
  split
  · split <;> rfl
  · split <;> rfl

theorem call_standard_nonvoid_one (ops : IValueOps IValue V) (result : CType)
    (boxed_kernel_func : InternalBoxedKernelFunction K H IValue)
    (functor : K) (opHandle : H) (args : List (Arg V)) (v : IValue)
    (hv : result ≠ CType.void)
    (h1 : stackAfter ops boxed_kernel_func functor opHandle args = [v]) :
    (call_standard ops result boxed_kernel_func functor opHandle args).outcome =
      .ok (Ret.value (ops.extract result v)) := by
  unfold stackAfter at h1
  have hne : (!(result == CType.void)) = true := by simpa using hv
  rw [← push_empty_stack ops args] at h1
  unfold call_standard
  simp only [invoke, hne, if_true]
  split
  · simp only [Except.ok.injEq, Ret.value.injEq]
    congr 1
    exact get_zero_of_eq_singleton _ v _ h1
  · rename_i hlen
    exact absurd (by rw [h1]; rfl) hlen

theorem call_standard_nonvoid_other (ops : IValueOps IValue V) (result : CType)
    (boxed_kernel_func : InternalBoxedKernelFunction K H IValue)
    (functor : K) (opHandle : H) (args : List (Arg V))
    (hv : result ≠ CType.void)
    (h1 : (stackAfter ops boxed_kernel_func functor opHandle args).length ≠ 1) :
    (call_standard ops result boxed_kernel_func functor opHandle args).outcome =
      .error ⟨"Boxed kernel was expected to push exactly one return value to the stack."⟩ := by
  unfold stackAfter at h1
  unfold call_standard
  simp only [invoke, push_empty_stack, push_empty_trace]
  have hne : (!(result == CType.void)) = true := by simpa using hv
  simp only [hne, if_true, h1, dite_false]

theorem call_standard_void (ops : IValueOps IValue V)
    (boxed_kernel_func : InternalBoxedKernelFunction K H IValue)
    (functor : K) (opHandle : H) (args : List (Arg V)) :
    (call_standard ops CType.void boxed_kernel_func functor opHandle args).outcome =
      if (stackAfter ops boxed_kernel_func functor opHandle args).length = 0 then
        .ok Ret.void
      else
        .error ⟨"Boxed kernel for op with void return type pushed one or more return values to the stack."⟩ := by
  unfold stackAfter
  unfold call_standard
  simp only [invoke, push_empty_stack, push_empty_trace]
  have hne : (!(CType.void == CType.void)) = false := by decide
  simp only [hne, Bool.false_eq_true, if_false]
  split <;> rfl

theorem select_eq_some_iff (tr : IValueTraits) (sig : Signature) (s : Specialization) :
    select tr sig = some s ↔ matching tr sig = [s] := by
  unfold select
  constructor
  · intro h
    split at h
    · rename_i s0 hm
      have hs : s0 = s := by simpa using h
      rw [hm, hs]
    · simp at h
  · intro h
    rw [h]

theorem mem_matching_iff (tr : IValueTraits) (sig : Signature) (s : Specialization) :
    s ∈ matching tr sig ↔ enabled tr sig s = true := by
  unfold matching allSpecializations
  rw [List.mem_filter]
  constructor
  · exact fun h => h.2
  · intro h
    refine ⟨?_, h⟩
    cases s <;> simp

theorem select_of_enabled (tr : IValueTraits) (sig : Signature) (s0 s : Specialization)
    (hen : enabled tr sig s0 = true) (hsel : select tr sig = some s) : s = s0 := by
  have hm := (select_eq_some_iff tr sig s).mp hsel
  have hmem := (mem_matching_iff tr sig s0).mpr hen
  rw [hm] at hmem
  exact (List.mem_singleton.mp hmem).symm

theorem call_singleRef_trace (ops : IValueOps IValue V)
    (boxed_kernel_func : InternalBoxedKernelFunction K H IValue)
    (functor : K) (opHandle : H) (outArg : Arg V) (otherArgs : List (Arg V)) :
    (call_singleRef ops boxed_kernel_func functor opHandle outArg otherArgs).trace =
      (boxedArgs ops (outArg :: otherArgs)).map Event.push ++
        [Event.invoke (boxedArgs ops (outArg :: otherArgs))
          (stackAfter ops boxed_kernel_func functor opHandle (outArg :: otherArgs))] := by
  unfold call_singleRef
  simp [invoke, push_stack, push_trace, stackAfter, push_one, Frame.empty, boxedArgs]

theorem call_tupleOfRefs_trace (ops : IValueOps IValue V) (result : CType)
    (boxed_kernel_func : InternalBoxedKernelFunction K H IValue)
    (functor : K) (opHandle : H) (args : List (Arg V)) :
    (call_tupleOfRefs ops result boxed_kernel_func functor opHandle args).trace =
      (boxedArgs ops args).map Event.push ++
        [Event.invoke (boxedArgs ops args)
          (stackAfter ops boxed_kernel_func functor opHandle args)] := by
  unfold call_tupleOfRefs
  simp only [invoke, push_empty_stack, push_empty_trace, stackAfter]

theorem boxArguments_cons (tr : IValueTraits) (ops : IValueOps IValue V)
    (stack : Frame IValue) (item : Arg V) (other_items : List (Arg V)) :
    boxArgumentsOrCannotBoxIntoStack tr ops stack (item :: other_items) =
      ((boxArgumentsOrCannotBoxIntoStack tr ops
          (pushIValueOrCannotBox tr ops stack item).2 other_items).1
        && (pushIValueOrCannotBox tr ops stack item).1,
       (boxArgumentsOrCannotBoxIntoStack tr ops
          (pushIValueOrCannotBox tr ops stack item).2 other_items).2) := by
  cases other_items with
  | nil => simp [boxArgumentsOrCannotBoxIntoStack]
  | cons b rest => simp [boxArgumentsOrCannotBoxIntoStack]

theorem pushIValueOrCannotBox_fst (tr : IValueTraits) (ops : IValueOps IValue V)
    (stack : Frame IValue) (v : Arg V) :
    (pushIValueOrCannotBox tr ops stack v).1 = ok_to_box tr (decay v.ty) := by
  unfold pushIValueOrCannotBox
  cases ok_to_box tr (decay v.ty) <;> simp

theorem pushIValueOrCannotBox_stack (tr : IValueTraits) (ops : IValueOps IValue V)
    (stack : Frame IValue) (v : Arg V) :
    (pushIValueOrCannotBox tr ops stack v).2.stack =
      stack.stack ++ [stackEntry tr ops v] := by
  unfold pushIValueOrCannotBox stackEntry
  cases ok_to_box tr (decay v.ty) <;> simp [push_literal, push_one]

theorem callBoxedFunc_trace (tr : IValueTraits) (ops : IValueOps IValue V) (result : CType)
    (boxed_kernel_func : InternalBoxedKernelFunction K H IValue)
    (functor : K) (opHandle : H) (stack : Frame IValue)
    (hsup : supports_boxing_result tr result = true) :
    (callBoxedFunc tr ops result boxed_kernel_func functor opHandle stack).trace =
      stack.trace ++
        [Event.invoke stack.stack (boxed_kernel_func functor opHandle stack.stack)] := by
  unfold callBoxedFunc
  simp only [hsup, Bool.not_true, Bool.false_eq_true, if_false, invoke]
  split
  · split <;> rfl
  · split <;> rfl

theorem callBoxedFunc_nonvoid_one (tr : IValueTraits) (ops : IValueOps IValue V)
    (result : CType) (boxed_kernel_func : InternalBoxedKernelFunction K H IValue)
    (functor : K) (opHandle : H) (stack : Frame IValue) (v : IValue)
    (hsup : supports_boxing_result tr result = true) (hv : result ≠ CType.void)
    (h1 : boxed_kernel_func functor opHandle stack.stack = [v]) :
    (callBoxedFunc tr ops result boxed_kernel_func functor opHandle stack).outcome =
      .ok (Ret.value (ops.extract result v)) := by
  have hne : (!(result == CType.void)) = true := by simpa using hv
  unfold callBoxedFunc
  simp only [hsup, Bool.not_true, Bool.false_eq_true, if_false, invoke, hne, if_true]
  split
  · simp only [Except.ok.injEq, Ret.value.injEq]
    congr 1
    exact get_zero_of_eq_singleton _ v _ h1
  · rename_i hlen
    exact absurd (by rw [h1]; rfl) hlen

theorem callBoxedFunc_nonvoid_other (tr : IValueTraits) (ops : IValueOps IValue V)
    (result : CType) (boxed_kernel_func : InternalBoxedKernelFunction K H IValue)
    (functor : K) (opHandle : H) (stack : Frame IValue)
    (hsup : supports_boxing_result tr result = true) (hv : result ≠ CType.void)
    (h1 : (boxed_kernel_func functor opHandle stack.stack).length ≠ 1) :
    (callBoxedFunc tr ops result boxed_kernel_func functor opHandle stack).outcome =
      .error ⟨"A boxed kernel should only push one return to the stack"⟩ := by
  have hne : (!(result == CType.void)) = true := by simpa using hv
  unfold callBoxedFunc
  simp only [hsup, Bool.not_true, Bool.false_eq_true, if_false, invoke, hne, if_true, h1,
    dite_false]

theorem callBoxedFunc_void (tr : IValueTraits) (ops : IValueOps IValue V)
    (boxed_kernel_func : InternalBoxedKernelFunction K H IValue)
    (functor : K) (opHandle : H) (stack : Frame IValue)
    (hsup : supports_boxing_result tr CType.void = true) :
    (callBoxedFunc tr ops CType.void boxed_kernel_func functor opHandle stack).outcome =
      if (boxed_kernel_func functor opHandle stack.stack).length = 0 then
        .ok Ret.void
      else
        .error ⟨"A boxed kernel returned a value but when we called it with KernelFunction::callBoxedFunc(), we expected it to return void."⟩ := by
  have hne : (!(CType.void == CType.void)) = false := by decide
  unfold callBoxedFunc
  simp only [hsup, Bool.not_true, Bool.false_eq_true, if_false, invoke, hne]
  split <;> rfl

theorem enabled_singleRef_iff (tr : IValueTraits) (sig : Signature) :
    enabled tr sig .singleRef = true ↔
      can_box_all tr sig.args = true ∧ sig.result = TensorRef ∧
        sig.args.head? = some TensorRef := by
  obtain ⟨result, args⟩ := sig
  cases args with
  | nil => simp [enabled]
  | cons first otherArgs =>
    simp only [enabled, Bool.and_eq_true, beq_iff_eq, is_tensor_ref, List.head?_cons,
      Option.some.injEq, can_box_all, List.all_cons]
    constructor
    · rintro ⟨h1, ⟨h2, h3⟩, h4⟩
      subst h4
      subst h1
      exact ⟨⟨h2, h3⟩, rfl, rfl⟩
    · rintro ⟨⟨h2, h3⟩, h4, h5⟩
      subst h4
      subst h5
      exact ⟨rfl, ⟨h2, h3⟩, rfl⟩

theorem standard_singleRef_exclusive (tr : IValueTraits) (sig : Signature)
    (h3 : enabled tr sig .singleRef = true) : enabled tr sig .standard = false := by
  have hres := ((enabled_singleRef_iff tr sig).mp h3).2.1
  simp [enabled, can_unbox, hres, TensorRef, is_lvalue_reference]

theorem standard_tupleOfRefs_exclusive (tr : IValueTraits) (sig : Signature)
    (h4 : enabled tr sig .tupleOfRefs = true) : enabled tr sig .standard = false := by
  simp only [enabled, Bool.and_eq_true] at h4
  simp [enabled, h4.2]

theorem singleRef_tupleOfRefs_exclusive (tr : IValueTraits) (sig : Signature)
    (h3 : enabled tr sig .singleRef = true) : enabled tr sig .tupleOfRefs = false := by
  have hres := ((enabled_singleRef_iff tr sig).mp h3).2.1
  simp [enabled, hres, TensorRef, is_tuple_of_tensor_refs]

theorem matching_eq (tr : IValueTraits) (sig : Signature) :
    matching tr sig =
      (if enabled tr sig .dimnameTrap then [Specialization.dimnameTrap] else []) ++
      (if enabled tr sig .quantizerTrap then [Specialization.quantizerTrap] else []) ++
      (if enabled tr sig .standard then [Specialization.standard] else []) ++
      (if enabled tr sig .singleRef then [Specialization.singleRef] else []) ++
      (if enabled tr sig .tupleOfRefs then [Specialization.tupleOfRefs] else []) := by
  unfold matching allSpecializations
  simp only [List.filter]
  cases enabled tr sig .dimnameTrap <;> cases enabled tr sig .quantizerTrap <;>
    cases enabled tr sig .standard <;> cases enabled tr sig .singleRef <;>
    cases enabled tr sig .tupleOfRefs <;> rfl

theorem unbox_boxedArgs (ops : IValueOps IValue V) (args : List (Arg V))
    (h : ∀ a ∈ args, ops.extract a.ty (ops.construct a.ty a.val) = a.val) :
    List.zipWith (fun ty iv => ops.extract ty iv) (args.map Arg.ty) (boxedArgs ops args) =
      args.map Arg.val := by
  induction args with
  | nil => rfl
  | cons a rest ih =>
    simp only [List.map_cons, boxedArgs, List.zipWith_cons_cons, List.cons.injEq]
    refine ⟨h a (by simp), ?_⟩
    exact ih (fun b hb => h b (by simp [hb]))

end Lemmas

/-! ## The claims -/

section Claims

variable {IValue V K H : Type}

/-- C1: for a signature of the single-reference-return category (result
`at::Tensor&`, first parameter of the same type), and for every boxed kernel,
whatever it leaves on the stack, `BoxedKernelWrapper::call` returns normally
and returns the first argument that was passed in. -/
theorem singleRef_call_returns_outArg (tr : IValueTraits) (ops : IValueOps IValue V)
    (result : CType) (boxed_kernel_func : InternalBoxedKernelFunction K H IValue)
    (functor : K) (opHandle : H) (args : List (Arg V))
    (hsel : select tr { result := result, args := args.map Arg.ty } = some .singleRef) :
    result = TensorRef ∧
    ∃ outArg otherArgs run, args = outArg :: otherArgs ∧ outArg.ty = TensorRef ∧
      BoxedKernelWrapper.call tr ops result boxed_kernel_func functor opHandle args = some run ∧
      run.outcome = .ok (Ret.value outArg.val) := by
  have hen := select_eq_some_enabled tr _ _ hsel
  obtain ⟨hres, otherTys, hargs⟩ := enabled_singleRef_shape tr result _ hen
  refine ⟨hres, ?_⟩
  cases args with
  | nil => simp at hargs
  | cons outArg otherArgs =>
    simp only [List.map_cons, List.cons.injEq] at hargs
    refine ⟨outArg, otherArgs,
      call_singleRef ops boxed_kernel_func functor opHandle outArg otherArgs,
      rfl, hargs.1, ?_, rfl⟩
    simp only [BoxedKernelWrapper.call, hsel]

/-- C1 at `add_(Tensor&, Tensor)` with a kernel that leaves the stack empty:
the call returns the tensor reference passed first. -/
theorem singleRef_call_returns_outArg_witness :
    select sampleTraits
        { result := TensorRef, args := addInplaceArgs.map Arg.ty } = some .singleRef ∧
    (TensorRef = TensorRef ∧
      ∃ outArg otherArgs run, addInplaceArgs = outArg :: otherArgs ∧ outArg.ty = TensorRef ∧
        BoxedKernelWrapper.call sampleTraits sampleOps TensorRef clearingKernel () ()
          addInplaceArgs = some run ∧
        run.outcome = .ok (Ret.value outArg.val)) :=
  ⟨by decide, singleRef_call_returns_outArg sampleTraits sampleOps TensorRef clearingKernel () ()
    addInplaceArgs (by decide)⟩

/-- C2: for a signature of the tuple-of-references category whose result is
a tuple of `N` Tensor references and whose first `N` parameters are Tensor
references, and for every boxed kernel, `BoxedKernelWrapper::call` returns a
tuple of length `N` whose `i`-th element is the `i`-th argument. -/
theorem tupleOfRefs_call_returns_first_args (tr : IValueTraits) (ops : IValueOps IValue V)
    (result : CType) (boxed_kernel_func : InternalBoxedKernelFunction K H IValue)
    (functor : K) (opHandle : H) (args : List (Arg V))
    (hsel : select tr { result := result, args := args.map Arg.ty } = some .tupleOfRefs)
    (hrefs : ∀ i, i < tuple_size result → (args.map Arg.ty)[i]? = some TensorRef) :
    ∃ run vs,
      BoxedKernelWrapper.call tr ops result boxed_kernel_func functor opHandle args = some run ∧
      run.outcome = .ok (Ret.tuple vs) ∧ vs.length = tuple_size result ∧
      ∀ i, i < tuple_size result → vs[i]? = (args[i]?).map Arg.val := by
  have hen := select_eq_some_enabled tr _ _ hsel
  have htup : is_tuple_of_tensor_refs result = true := by
    simp only [enabled, Bool.and_eq_true] at hen
    exact hen.2
  have hsa := tuple_static_assert_of_refs result (args.map Arg.ty) htup hrefs
  have hlen : tuple_size result ≤ args.length := by
    by_contra hlt
    have h1 := hrefs args.length (by omega)
    simp at h1
  refine ⟨call_tupleOfRefs ops result boxed_kernel_func functor opHandle args,
    tuple_take (tuple_size result) (args.map Arg.val), ?_, rfl, ?_, ?_⟩
  · simp only [BoxedKernelWrapper.call, hsel, hsa, if_true]
  · simp only [tuple_take, List.length_take, List.length_map]
    omega
  · intro i hi
    simp only [tuple_take, List.getElem?_take, hi, if_true, List.getElem?_map]

/-- C2 at a signature returning `std::tuple<Tensor&, Tensor&>` with three
parameters, the first two being Tensor references, and a kernel that leaves
the stack empty. -/
theorem tupleOfRefs_call_returns_first_args_witness :
    select sampleTraits
        { result := TensorRefPair, args := twoOutArgs.map Arg.ty } = some .tupleOfRefs ∧
    (∀ i, i < tuple_size TensorRefPair → (twoOutArgs.map Arg.ty)[i]? = some TensorRef) ∧
    ∃ run vs,
      BoxedKernelWrapper.call sampleTraits sampleOps TensorRefPair clearingKernel () ()
        twoOutArgs = some run ∧
      run.outcome = .ok (Ret.tuple vs) ∧ vs.length = tuple_size TensorRefPair ∧
      ∀ i, i < tuple_size TensorRefPair → vs[i]? = (twoOutArgs[i]?).map Arg.val :=
  have hrefs : ∀ i, i < tuple_size TensorRefPair →
      (twoOutArgs.map Arg.ty)[i]? = some TensorRef := by
    intro i hi
    have hi2 : i < 2 := hi
    interval_cases i <;> rfl
  ⟨by decide, hrefs,
    tupleOfRefs_call_returns_first_args sampleTraits sampleOps TensorRefPair clearingKernel
      () () twoOutArgs (by decide) hrefs⟩

/-- C3: for a signature of the standard category and every boxed kernel:
with a non-void result, `BoxedKernelWrapper::call` returns normally if and
only if the stack left by the kernel holds exactly one value, and the result
is then the unboxing of slot 0; with a void result it returns normally if and
only if the stack left by the kernel is empty; in every other case it raises
the internal assertion failure. -/
theorem standard_call_returns_iff (tr : IValueTraits) (ops : IValueOps IValue V)
    (result : CType) (boxed_kernel_func : InternalBoxedKernelFunction K H IValue)
    (functor : K) (opHandle : H) (args : List (Arg V))
    (hsel : select tr { result := result, args := args.map Arg.ty } = some .standard) :
    ∃ run,
      BoxedKernelWrapper.call tr ops result boxed_kernel_func functor opHandle args = some run ∧
      (result ≠ CType.void →
        ((∃ r, run.outcome = .ok r) ↔
          (stackAfter ops boxed_kernel_func functor opHandle args).length = 1) ∧
        (∀ v, stackAfter ops boxed_kernel_func functor opHandle args = [v] →
          run.outcome = .ok (Ret.value (ops.extract result v))) ∧
        ((stackAfter ops boxed_kernel_func functor opHandle args).length ≠ 1 →
          run.outcome = .error
            ⟨"Boxed kernel was expected to push exactly one return value to the stack."⟩)) ∧
      (result = CType.void →
        ((∃ r, run.outcome = .ok r) ↔
          (stackAfter ops boxed_kernel_func functor opHandle args).length = 0) ∧
        ((stackAfter ops boxed_kernel_func functor opHandle args).length = 0 →
          run.outcome = .ok Ret.void) ∧
        ((stackAfter ops boxed_kernel_func functor opHandle args).length ≠ 0 →
          run.outcome = .error
            ⟨"Boxed kernel for op with void return type pushed one or more return values to the stack."⟩)) := by
  refine ⟨call_standard ops result boxed_kernel_func functor opHandle args, ?_, ?_, ?_⟩
  · simp only [BoxedKernelWrapper.call, hsel]
  · intro hv
    refine ⟨⟨?_, ?_⟩, ?_, ?_⟩
    · rintro ⟨r, hr⟩
      by_contra hlen
      rw [call_standard_nonvoid_other ops result boxed_kernel_func functor opHandle args hv hlen]
        at hr
      cases hr
    · intro hlen
      obtain ⟨v, hv1⟩ := List.length_eq_one.mp hlen
      exact ⟨_, call_standard_nonvoid_one ops result boxed_kernel_func functor opHandle args v
        hv hv1⟩
    · intro v hv1
      exact call_standard_nonvoid_one ops result boxed_kernel_func functor opHandle args v hv hv1
    · intro hlen
      exact call_standard_nonvoid_other ops result boxed_kernel_func functor opHandle args hv hlen
  · intro hv
    subst hv
    rw [call_standard_void]
    refine ⟨⟨?_, ?_⟩, ?_, ?_⟩
    · rintro ⟨r, hr⟩
      by_contra hlen
      rw [if_neg hlen] at hr
      cases hr
    · intro hlen
      exact ⟨_, if_pos hlen⟩
    · intro hlen
      exact if_pos hlen
    · intro hlen
      exact if_neg hlen

/-- C3 at `add(Tensor, Tensor) -> Tensor` with a kernel that leaves one tensor. -/
theorem standard_call_returns_iff_witness :
    select sampleTraits { result := .tensor, args := addArgs.map Arg.ty } = some .standard ∧
    ∃ run,
      BoxedKernelWrapper.call sampleTraits sampleOps .tensor (oneTensorKernel 9) () () addArgs
        = some run ∧
      (CType.tensor ≠ CType.void →
        ((∃ r, run.outcome = .ok r) ↔
          (stackAfter sampleOps (oneTensorKernel 9) () () addArgs).length = 1) ∧
        (∀ v, stackAfter sampleOps (oneTensorKernel 9) () () addArgs = [v] →
          run.outcome = .ok (Ret.value (sampleOps.extract .tensor v))) ∧
        ((stackAfter sampleOps (oneTensorKernel 9) () () addArgs).length ≠ 1 →
          run.outcome = .error
            ⟨"Boxed kernel was expected to push exactly one return value to the stack."⟩)) ∧
      (CType.tensor = CType.void →
        ((∃ r, run.outcome = .ok r) ↔
          (stackAfter sampleOps (oneTensorKernel 9) () () addArgs).length = 0) ∧
        ((stackAfter sampleOps (oneTensorKernel 9) () () addArgs).length = 0 →
          run.outcome = .ok Ret.void) ∧
        ((stackAfter sampleOps (oneTensorKernel 9) () () addArgs).length ≠ 0 →
          run.outcome = .error
            ⟨"Boxed kernel for op with void return type pushed one or more return values to the stack."⟩)) :=
  ⟨by decide, standard_call_returns_iff sampleTraits sampleOps .tensor (oneTensorKernel 9) () ()
    addArgs (by decide)⟩

/-- C5: for a signature of the standard category whose argument and result
types convert losslessly to and from the Uniform Value, and a typed kernel
`f` (returning nothing exactly when the result type is `void`): when the boxed
kernel is the boxed form of `f`, `BoxedKernelWrapper::call` returns what the
direct typed call of `f` on the same arguments returns. -/
theorem standard_call_roundtrip (tr : IValueTraits) (ops : IValueOps IValue V)
    (result : CType) (f : List V → Option V) (functor : K) (opHandle : H)
    (args : List (Arg V))
    (hsel : select tr { result := result, args := args.map Arg.ty } = some .standard)
    (hargs : ∀ a ∈ args, ops.extract a.ty (ops.construct a.ty a.val) = a.val)
    (hres : ∀ r, ops.extract result (ops.construct result r) = r)
    (hf : f (args.map Arg.val) = none ↔ result = CType.void) :
    ∃ run,
      BoxedKernelWrapper.call tr ops result
        (boxedFormOf ops result (args.map Arg.ty) f) functor opHandle args = some run ∧
      run.outcome = .ok (Ret.ofOption (f (args.map Arg.val))) := by
  refine ⟨_, by simp only [BoxedKernelWrapper.call, hsel]; rfl, ?_⟩
  have hafter : stackAfter ops (boxedFormOf ops result (args.map Arg.ty) f) functor opHandle args
      = match f (args.map Arg.val) with
        | some r => [ops.construct result r]
        | none => [] := by
    simp only [stackAfter, boxedFormOf, unbox_boxedArgs ops args hargs]
  cases hfv : f (args.map Arg.val) with
  | none =>
    have hv : result = CType.void := hf.mp hfv
    subst hv
    rw [hfv] at hafter
    rw [call_standard_void, hafter]
    rfl
  | some r =>
    have hv : result ≠ CType.void := fun h => by
      have := hf.mpr h
      rw [hfv] at this
      cases this
    rw [hfv] at hafter
    rw [call_standard_nonvoid_one ops result _ functor opHandle args _ hv hafter, hres]
    rfl

/-- C5 at `add(Tensor, Tensor) -> Tensor`: the boxed call of the addition
kernel on tensors 3 and 4 returns tensor 7, as the direct call does. -/
theorem standard_call_roundtrip_witness :
    select sampleTraits { result := .tensor, args := addArgs.map Arg.ty } = some .standard ∧
    (∀ a ∈ addArgs, sampleOps.extract a.ty (sampleOps.construct a.ty a.val) = a.val) ∧
    (∀ r, sampleOps.extract .tensor (sampleOps.construct .tensor r) = r) ∧
    (addKernel (addArgs.map Arg.val) = none ↔ CType.tensor = CType.void) ∧
    addKernel (addArgs.map Arg.val) = some (.tensor 7) ∧
    ∃ run,
      BoxedKernelWrapper.call sampleTraits sampleOps .tensor
        (boxedFormOf sampleOps .tensor (addArgs.map Arg.ty) addKernel) () () addArgs
        = some run ∧
      run.outcome = .ok (Ret.value (.tensor 7)) :=
  have hargs : ∀ a ∈ addArgs,
      sampleOps.extract a.ty (sampleOps.construct a.ty a.val) = a.val := by
    intro a ha
    simp only [addArgs, List.mem_cons, List.mem_singleton, List.not_mem_nil, or_false] at ha
    rcases ha with h | h <;> subst h <;> rfl
  have hres : ∀ r, sampleOps.extract .tensor (sampleOps.construct .tensor r) = r := by
    intro r
    cases r <;> rfl
  have hf : addKernel (addArgs.map Arg.val) = none ↔ CType.tensor = CType.void := by
    constructor <;> intro h <;> cases h
  ⟨by decide, hargs, hres, hf, rfl,
    standard_call_roundtrip sampleTraits sampleOps .tensor addKernel () () addArgs
      (by decide) hargs hres hf⟩

/-- C6: on each of the call paths of the standard, single-reference and
tuple-of-references categories, the stack is created empty, receives one
Uniform Value per argument in argument order, and is then handed to the boxed
kernel: it holds exactly the boxed arguments, as many as there are arguments.
On the standard path with a non-void result, the stack after an invocation
followed by a normal return has length 1. -/
theorem invoker_receives_boxed_args (tr : IValueTraits) (ops : IValueOps IValue V)
    (result : CType) (boxed_kernel_func : InternalBoxedKernelFunction K H IValue)
    (functor : K) (opHandle : H) (args : List (Arg V))
    (hsel : select tr { result := result, args := args.map Arg.ty } = some .standard ∨
      select tr { result := result, args := args.map Arg.ty } = some .singleRef ∨
      (select tr { result := result, args := args.map Arg.ty } = some .tupleOfRefs ∧
        tuple_static_assert result (args.map Arg.ty) = true)) :
    ∃ run,
      BoxedKernelWrapper.call tr ops result boxed_kernel_func functor opHandle args = some run ∧
      run.trace = (boxedArgs ops args).map Event.push ++
        [Event.invoke (boxedArgs ops args)
          (stackAfter ops boxed_kernel_func functor opHandle args)] ∧
      (boxedArgs ops args).length = args.length ∧
      (∀ i (h : i < args.length),
        (boxedArgs ops args)[i]? = some (ops.construct (args.get ⟨i, h⟩).ty (args.get ⟨i, h⟩).val)) ∧
      (select tr { result := result, args := args.map Arg.ty } = some .standard →
        result ≠ CType.void → (∃ r, run.outcome = .ok r) →
        (stackAfter ops boxed_kernel_func functor opHandle args).length = 1) := by
  have hlen := boxedArgs_length ops args
  have hget : ∀ i (h : i < args.length),
      (boxedArgs ops args)[i]? =
        some (ops.construct (args.get ⟨i, h⟩).ty (args.get ⟨i, h⟩).val) := by
    intro i h
    simp [boxedArgs, List.getElem?_map, List.getElem?_eq_getElem h]
  rcases hsel with hsel | hsel | ⟨hsel, hsa⟩
  · refine ⟨call_standard ops result boxed_kernel_func functor opHandle args, ?_,
      call_standard_trace ops result boxed_kernel_func functor opHandle args, hlen, hget, ?_⟩
    · simp only [BoxedKernelWrapper.call, hsel]
    · intro _ hv hok
      by_contra hne
      obtain ⟨r, hr⟩ := hok
      rw [call_standard_nonvoid_other ops result boxed_kernel_func functor opHandle args hv hne]
        at hr
      cases hr
  · have hen := select_eq_some_enabled tr _ _ hsel
    obtain ⟨_, otherTys, hshape⟩ := enabled_singleRef_shape tr result _ hen
    cases args with
    | nil => simp at hshape
    | cons outArg otherArgs =>
      refine ⟨call_singleRef ops boxed_kernel_func functor opHandle outArg otherArgs, ?_,
        call_singleRef_trace ops boxed_kernel_func functor opHandle outArg otherArgs,
        hlen, hget, ?_⟩
      · simp only [BoxedKernelWrapper.call, hsel]
      · intro h
        rw [hsel] at h
        cases h
  · refine ⟨call_tupleOfRefs ops result boxed_kernel_func functor opHandle args, ?_,
      call_tupleOfRefs_trace ops result boxed_kernel_func functor opHandle args, hlen, hget, ?_⟩
    · simp only [BoxedKernelWrapper.call, hsel, hsa, if_true]
    · intro h
      rw [hsel] at h
      cases h

/-- C6 at `add(Tensor, Tensor) -> Tensor`: the stack handed to the kernel has
length 2 and holds the two boxed tensors in order; after the kernel it has
length 1. -/
theorem invoker_receives_boxed_args_witness :
    boxedArgs sampleOps addArgs = [.tensor 3, .tensor 4] ∧
    (boxedArgs sampleOps addArgs).length = 2 ∧
    (stackAfter sampleOps (oneTensorKernel 9) () () addArgs).length = 1 ∧
    select sampleTraits { result := .tensor, args := addArgs.map Arg.ty } = some .standard ∧
    ∃ run,
      BoxedKernelWrapper.call sampleTraits sampleOps .tensor (oneTensorKernel 9) () () addArgs
        = some run ∧
      run.trace = (boxedArgs sampleOps addArgs).map Event.push ++
        [Event.invoke (boxedArgs sampleOps addArgs)
          (stackAfter sampleOps (oneTensorKernel 9) () () addArgs)] ∧
      (boxedArgs sampleOps addArgs).length = addArgs.length ∧
      (∀ i (h : i < addArgs.length),
        (boxedArgs sampleOps addArgs)[i]? =
          some (sampleOps.construct (addArgs.get ⟨i, h⟩).ty (addArgs.get ⟨i, h⟩).val)) ∧
      (select sampleTraits { result := .tensor, args := addArgs.map Arg.ty } = some .standard →
        CType.tensor ≠ CType.void → (∃ r, run.outcome = .ok r) →
        (stackAfter sampleOps (oneTensorKernel 9) () () addArgs).length = 1) :=
  ⟨rfl, rfl, rfl, by decide,
    invoker_receives_boxed_args sampleTraits sampleOps .tensor (oneTensorKernel 9) () () addArgs
      (Or.inl (by decide))⟩

/-- C7: for every initial stack and every argument list,
`boxArgumentsOrCannotBoxIntoStack` returns false if and only if some argument
has a type that is not `ok_to_box`; in every case the resulting stack is the
initial stack followed by one entry per argument, in argument order: the boxed
value when the type is `ok_to_box`, the "cannot box" string otherwise. -/
theorem boxArguments_pushes_every_argument (tr : IValueTraits) (ops : IValueOps IValue V)
    (stack : Frame IValue) (args : List (Arg V)) :
    ((boxArgumentsOrCannotBoxIntoStack tr ops stack args).1 = false ↔
      ∃ v ∈ args, ok_to_box tr (decay v.ty) = false) ∧
    (boxArgumentsOrCannotBoxIntoStack tr ops stack args).2.stack =
      stack.stack ++ args.map (stackEntry tr ops) ∧
    ((boxArgumentsOrCannotBoxIntoStack tr ops stack args).2.stack).length =
      stack.stack.length + args.length := by
  induction args generalizing stack with
  | nil => simp [boxArgumentsOrCannotBoxIntoStack]
  | cons item other_items ih =>
    obtain ⟨ih1, ih2, _⟩ := ih (pushIValueOrCannotBox tr ops stack item).2
    rw [boxArguments_cons]
    refine ⟨?_, ?_, ?_⟩
    · simp only [Bool.and_eq_false_imp, List.mem_cons, exists_eq_or_imp,
        pushIValueOrCannotBox_fst]
      constructor
      · intro h
        by_cases hitem : ok_to_box tr (decay item.ty) = false
        · exact Or.inl hitem
        · right
          apply ih1.mp
          by_contra hne
          have htrue := h (by simpa using hne)
          exact hitem htrue
      · intro h hrest
        rcases h with h | h
        · exact h
        · have := ih1.mpr h
          rw [hrest] at this
          cases this
    · simp only [ih2, pushIValueOrCannotBox_stack, List.map_cons, List.append_assoc,
        List.singleton_append]
    · simp only [ih2, pushIValueOrCannotBox_stack, List.map_cons, List.append_assoc,
        List.singleton_append, List.length_append, List.length_cons, List.length_map]

/-- An evaluation of `boxArgumentsOrCannotBoxIntoStack` on a stack holding one
value and three arguments of which the second cannot be boxed: the result is
false and the stack has gained three entries, the second being the marker. -/
theorem boxArguments_example :
    (boxArgumentsOrCannotBoxIntoStack sampleTraits sampleOps
        { stack := [.int 1], trace := [] } generatorArgs).1 = false ∧
    (boxArgumentsOrCannotBoxIntoStack sampleTraits sampleOps
        { stack := [.int 1], trace := [] } generatorArgs).2.stack =
      [.int 1, .tensor 3, .string "cannot box", .int 5] := by
  constructor <;> rfl

/-- C10: for a result type with `supports_boxing_result`, `callBoxedFunc`
calls the boxed kernel once on the given stack; with a non-void result it
returns normally if and only if the stack afterwards holds exactly one value,
the returned value being the unboxing of slot 0; with a void result it returns
normally if and only if the stack afterwards is empty; otherwise it raises the
internal assertion failure.  On a stack holding the boxed arguments it returns
normally exactly when the standard `call` does, with the same value. -/
theorem callBoxedFunc_returns_iff (tr : IValueTraits) (ops : IValueOps IValue V)
    (result : CType) (boxed_kernel_func : InternalBoxedKernelFunction K H IValue)
    (functor : K) (opHandle : H) (stack : Frame IValue)
    (hsup : supports_boxing_result tr result = true) :
    (callBoxedFunc tr ops result boxed_kernel_func functor opHandle stack).trace =
      stack.trace ++
        [Event.invoke stack.stack (boxed_kernel_func functor opHandle stack.stack)] ∧
    (result ≠ CType.void →
      ((∃ r, (callBoxedFunc tr ops result boxed_kernel_func functor opHandle stack).outcome
          = .ok r) ↔
        (boxed_kernel_func functor opHandle stack.stack).length = 1) ∧
      (∀ v, boxed_kernel_func functor opHandle stack.stack = [v] →
        (callBoxedFunc tr ops result boxed_kernel_func functor opHandle stack).outcome =
          .ok (Ret.value (ops.extract result v))) ∧
      ((boxed_kernel_func functor opHandle stack.stack).length ≠ 1 →
        (callBoxedFunc tr ops result boxed_kernel_func functor opHandle stack).outcome =
          .error ⟨"A boxed kernel should only push one return to the stack"⟩)) ∧
    (result = CType.void →
      ((∃ r, (callBoxedFunc tr ops result boxed_kernel_func functor opHandle stack).outcome
          = .ok r) ↔
        (boxed_kernel_func functor opHandle stack.stack).length = 0) ∧
      ((boxed_kernel_func functor opHandle stack.stack).length = 0 →
        (callBoxedFunc tr ops result boxed_kernel_func functor opHandle stack).outcome =
          .ok Ret.void) ∧
      ((boxed_kernel_func functor opHandle stack.stack).length ≠ 0 →
        (callBoxedFunc tr ops result boxed_kernel_func functor opHandle stack).outcome =
          .error ⟨"A boxed kernel returned a value but when we called it with KernelFunction::callBoxedFunc(), we expected it to return void."⟩)) ∧
    (∀ (args : List (Arg V)) (r : Ret V), stack.stack = boxedArgs ops args →
      ((callBoxedFunc tr ops result boxed_kernel_func functor opHandle stack).outcome = .ok r ↔
        (call_standard ops result boxed_kernel_func functor opHandle args).outcome = .ok r)) := by
  refine ⟨callBoxedFunc_trace tr ops result boxed_kernel_func functor opHandle stack hsup,
    ?_, ?_, ?_⟩
  · intro hv
    refine ⟨⟨?_, ?_⟩, ?_, ?_⟩
    · rintro ⟨r, hr⟩
      by_contra hlen
      rw [callBoxedFunc_nonvoid_other tr ops result boxed_kernel_func functor opHandle stack
        hsup hv hlen] at hr
      cases hr
    · intro hlen
      obtain ⟨v, hv1⟩ := List.length_eq_one.mp hlen
      exact ⟨_, callBoxedFunc_nonvoid_one tr ops result boxed_kernel_func functor opHandle
        stack v hsup hv hv1⟩
    · intro v hv1
      exact callBoxedFunc_nonvoid_one tr ops result boxed_kernel_func functor opHandle stack v
        hsup hv hv1
    · intro hlen
      exact callBoxedFunc_nonvoid_other tr ops result boxed_kernel_func functor opHandle stack
        hsup hv hlen
  · intro hv
    subst hv
    rw [callBoxedFunc_void tr ops boxed_kernel_func functor opHandle stack hsup]
    refine ⟨⟨?_, ?_⟩, ?_, ?_⟩
    · rintro ⟨r, hr⟩
      by_contra hlen
      rw [if_neg hlen] at hr
      cases hr
    · intro hlen
      exact ⟨_, if_pos hlen⟩
    · intro hlen
      exact if_pos hlen
    · intro hlen
      exact if_neg hlen
  · intro args r hst
    have hafter : stackAfter ops boxed_kernel_func functor opHandle args =
        boxed_kernel_func functor opHandle stack.stack := by
      rw [stackAfter, hst]
    by_cases hv : result = CType.void
    · subst hv
      rw [callBoxedFunc_void tr ops boxed_kernel_func functor opHandle stack hsup,
        call_standard_void, hafter]
      by_cases hlen : (boxed_kernel_func functor opHandle stack.stack).length = 0
      · simp only [hlen, if_true]
      · simp only [hlen, if_false]
        constructor <;> intro h <;> cases h
    · by_cases hlen : (boxed_kernel_func functor opHandle stack.stack).length = 1
      · obtain ⟨v, hv1⟩ := List.length_eq_one.mp hlen
        rw [callBoxedFunc_nonvoid_one tr ops result boxed_kernel_func functor opHandle stack v
            hsup hv hv1,
          call_standard_nonvoid_one ops result boxed_kernel_func functor opHandle args v hv
            (hafter.trans hv1)]
      · rw [callBoxedFunc_nonvoid_other tr ops result boxed_kernel_func functor opHandle stack
            hsup hv hlen,
          call_standard_nonvoid_other ops result boxed_kernel_func functor opHandle args hv
            (by rw [hafter]; exact hlen)]
        constructor <;> intro h <;> cases h

/-- C10 at result type `at::Tensor` on a stack of two tensors, with a kernel
that leaves one tensor: the call returns that tensor. -/
theorem callBoxedFunc_returns_iff_witness :
    supports_boxing_result sampleTraits .tensor = true ∧
    (callBoxedFunc sampleTraits sampleOps .tensor (oneTensorKernel 9) () ()
      { stack := [.tensor 3, .tensor 4], trace := [] }).outcome
        = .ok (Ret.value (SampleVal.tensor 9)) ∧
    (callBoxedFunc sampleTraits sampleOps .tensor idleKernel () ()
      { stack := [.tensor 3, .tensor 4], trace := [] }).outcome
        = (.error ⟨"A boxed kernel should only push one return to the stack"⟩ :
            Except InternalAssertFailure (Ret SampleVal)) :=
  have h := callBoxedFunc_returns_iff sampleTraits sampleOps .tensor (oneTensorKernel 9) () ()
    { stack := [.tensor 3, .tensor 4], trace := [] } (by decide)
  have h2 := callBoxedFunc_returns_iff sampleTraits sampleOps .tensor idleKernel () ()
    { stack := [.tensor 3, .tensor 4], trace := [] } (by decide)
  ⟨by decide, (h.2.1 (by decide)).2.1 (.tensor 9) rfl, (h2.2.1 (by decide)).2.2 (by decide)⟩

/-- C8 fails at `Tensor&(const Tensor&, Tensor&)`: its result cannot be
unboxed, it has no argument of an excluded family, and it satisfies the
enabling condition of no specialization, so it is not classified as
unsupported-trap and not classified at all. -/
theorem classification_total_counterexample :
    can_unbox sampleTraits outLastSig.result = false ∧
    ¬ (∃ s, enabled sampleTraits outLastSig s = true) ∧
    enabled sampleTraits outLastSig .dimnameTrap = false ∧
    enabled sampleTraits outLastSig .quantizerTrap = false ∧
    select sampleTraits outLastSig = none := by
  refine ⟨by decide, ?_, by decide, by decide, by decide⟩
  rintro ⟨s, hs⟩
  cases s <;> exact absurd hs (by decide)

/-- C8, amended: a signature satisfies the enabling condition of a trap
specialization exactly when an argument decays to a type of the dimension-name
or quantizer family; a signature without such an argument satisfies the
enabling condition of at most one specialization; and a signature satisfies
none (only the base definition without `call` is left) exactly when it has no
such argument and either some argument is not `can_box`, or the result is
neither `can_unbox`, nor a tuple of Tensor references, nor `at::Tensor&`
repeated as the first parameter type. -/
theorem classification_partial (tr : IValueTraits) (sig : Signature) :
    ((enabled tr sig .dimnameTrap = true ∨ enabled tr sig .quantizerTrap = true) ↔
      (has_dimname_arg sig.args = true ∨ has_quantizer_arg sig.args = true)) ∧
    (has_dimname_arg sig.args = false → has_quantizer_arg sig.args = false →
      (matching tr sig).length ≤ 1) ∧
    (matching tr sig = [] ↔
      has_dimname_arg sig.args = false ∧ has_quantizer_arg sig.args = false ∧
        (can_box_all tr sig.args = false ∨
          (can_unbox tr sig.result = false ∧ is_tuple_of_tensor_refs sig.result = false ∧
            ¬ (sig.result = TensorRef ∧ sig.args.head? = some TensorRef)))) ∧
    (select tr sig = none ↔ (matching tr sig).length ≠ 1) := by
  have h23 := standard_singleRef_exclusive tr sig
  have h24 := standard_tupleOfRefs_exclusive tr sig
  have h34 := singleRef_tupleOfRefs_exclusive tr sig
  have h3 := enabled_singleRef_iff tr sig
  refine ⟨Iff.rfl, ?_, ?_, ?_⟩
  · intro hd hq
    have hd1 : enabled tr sig .dimnameTrap = false := hd
    have hq1 : enabled tr sig .quantizerTrap = false := hq
    rw [matching_eq, hd1, hq1]
    cases he3 : enabled tr sig .singleRef
    · cases he4 : enabled tr sig .tupleOfRefs
      · cases enabled tr sig .standard <;> simp
      · simp [h24 he4]
    · simp [h23 he3, h34 he3]
  · rw [matching_eq]
    have hd1 : enabled tr sig .dimnameTrap = has_dimname_arg sig.args := rfl
    have hq1 : enabled tr sig .quantizerTrap = has_quantizer_arg sig.args := rfl
    have h2 : enabled tr sig .standard =
        (can_box_all tr sig.args && can_unbox tr sig.result
          && !(is_tuple_of_tensor_refs sig.result)) := rfl
    have h4 : enabled tr sig .tupleOfRefs =
        (can_box_all tr sig.args && is_tuple_of_tensor_refs sig.result) := rfl
    rw [← hd1, ← hq1]
    cases he1 : enabled tr sig .dimnameTrap
    · cases he2 : enabled tr sig .quantizerTrap
      · cases hb : can_box_all tr sig.args
        · have e3 : enabled tr sig .singleRef = false := by
            cases he3 : enabled tr sig .singleRef
            · rfl
            · have := (h3.mp he3).1
              rw [hb] at this
              cases this
          simp [h2, h4, hb, e3]
        · cases hu : can_unbox tr sig.result <;> cases ht : is_tuple_of_tensor_refs sig.result <;>
            cases he3 : enabled tr sig .singleRef <;>
            simp [h2, h4, hb, hu, ht] <;>
            first
              | (intro hr hh
                 have := h3.mpr ⟨hb, hr, hh⟩
                 rw [he3] at this
                 cases this)
              | exact (h3.mp he3).2
      · simp
    · simp
  · unfold select
    split
    · rename_i s hm
      simp [hm]
    · rename_i hne
      simp only [true_iff]
      intro hlen
      obtain ⟨s, hs⟩ := List.length_eq_one.mp hlen
      exact hne s hs

/-- C11: for every result type `R`, `supports_boxing_result<R>` holds if and
only if `R` is not an lvalue reference, `R` is `ok_to_box` (a Uniform Value is
constructible from `R`, or `R` is `TensorOptions`, or `R` is `void`) and `R`
is not `IntArrayRef`; it holds for `void` and fails for `at::Tensor&` and for
`IntArrayRef`. -/
theorem supports_boxing_result_iff (tr : IValueTraits) :
    (∀ r : CType, supports_boxing_result tr r = true ↔
      is_lvalue_reference r = false ∧ ok_to_box tr r = true ∧ r ≠ IntArrayRef) ∧
    (∀ r : CType, ok_to_box tr r = true ↔
      tr.is_constructible r = true ∨ r = CType.tensorOptions ∨ r = CType.void) ∧
    supports_boxing_result tr CType.void = true ∧
    supports_boxing_result tr TensorRef = false ∧
    supports_boxing_result tr IntArrayRef = false := by
  refine ⟨?_, ?_, ?_, ?_, ?_⟩
  · intro r
    simp only [supports_boxing_result, Bool.not_eq_true', Bool.or_eq_false_iff,
      Bool.not_eq_false', beq_eq_false_iff_ne, ne_eq, and_assoc]
  · intro r
    simp only [ok_to_box, Bool.or_eq_true, beq_iff_eq, or_assoc]
  · simp [supports_boxing_result, ok_to_box, is_lvalue_reference, IntArrayRef]
  · simp [supports_boxing_result, TensorRef, is_lvalue_reference]
  · simp [supports_boxing_result]

/-- C13: the enabling conditions of the standard, single-reference and
tuple-of-references specializations are pairwise exclusive at every signature;
a signature returning an lvalue reference, `at::Tensor&` among them, never
satisfies the standard condition, because `can_unbox` rejects lvalue
references. -/
theorem supported_conditions_exclusive (tr : IValueTraits) (sig : Signature) :
    (enabled tr sig .standard = true ↔
      can_box_all tr sig.args = true ∧ can_unbox tr sig.result = true ∧
        is_tuple_of_tensor_refs sig.result = false) ∧
    (enabled tr sig .singleRef = true ↔
      can_box_all tr sig.args = true ∧ sig.result = TensorRef ∧
        sig.args.head? = some TensorRef) ∧
    (enabled tr sig .tupleOfRefs = true ↔
      can_box_all tr sig.args = true ∧ is_tuple_of_tensor_refs sig.result = true) ∧
    ¬ (enabled tr sig .standard = true ∧ enabled tr sig .singleRef = true) ∧
    ¬ (enabled tr sig .standard = true ∧ enabled tr sig .tupleOfRefs = true) ∧
    ¬ (enabled tr sig .singleRef = true ∧ enabled tr sig .tupleOfRefs = true) ∧
    (∀ t : CType, can_unbox tr (CType.lref t) = false) ∧
    (is_lvalue_reference sig.result = true → enabled tr sig .standard = false) ∧
    (sig.result = TensorRef → enabled tr sig .standard = false) := by
  have hlref : ∀ t : CType, can_unbox tr (CType.lref t) = false := by
    intro t
    simp [can_unbox, is_lvalue_reference]
  have hstd : is_lvalue_reference sig.result = true → enabled tr sig .standard = false := by
    intro h
    simp [enabled, can_unbox, h]
  refine ⟨?_, enabled_singleRef_iff tr sig, ?_, ?_, ?_, ?_, hlref, hstd, ?_⟩
  · simp only [enabled, Bool.and_eq_true, Bool.not_eq_true', and_assoc]
  · simp only [enabled, Bool.and_eq_true]
  · rintro ⟨h2, h3⟩
    rw [standard_singleRef_exclusive tr sig h3] at h2
    cases h2
  · rintro ⟨h2, h4⟩
    rw [standard_tupleOfRefs_exclusive tr sig h4] at h2
    cases h2
  · rintro ⟨h3, h4⟩
    rw [singleRef_tupleOfRefs_exclusive tr sig h3] at h4
    cases h4
  · intro h
    apply hstd
    rw [h]
    rfl

/-- C16: for every type `T`, `ok_to_box<T>` holds if and only if `can_box<T>`
holds or `T` is `void`, so every type accepted by `can_box` is accepted by
`ok_to_box`; a Uniform Value not being constructible from `void`, the two
predicates differ exactly on `void`: `can_box<void>` is false and
`ok_to_box<void>` is true. -/
theorem ok_to_box_iff_can_box_or_void (tr : IValueTraits)
    (hvoid : tr.is_constructible CType.void = false) :
    (∀ t : CType, ok_to_box tr t = true ↔ can_box tr t = true ∨ t = CType.void) ∧
    (∀ t : CType, can_box tr t = true → ok_to_box tr t = true) ∧
    (∀ t : CType, ok_to_box tr t ≠ can_box tr t ↔ t = CType.void) ∧
    can_box tr CType.void = false ∧
    ok_to_box tr CType.void = true := by
  have hiff : ∀ t : CType, ok_to_box tr t = true ↔ can_box tr t = true ∨ t = CType.void := by
    intro t
    simp only [ok_to_box, can_box, Bool.or_eq_true, beq_iff_eq]
  have hcv : can_box tr CType.void = false := by
    simp [can_box, hvoid]
  have hov : ok_to_box tr CType.void = true := (hiff CType.void).mpr (Or.inr rfl)
  refine ⟨hiff, fun t h => (hiff t).mpr (Or.inl h), ?_, hcv, hov⟩
  intro t
  constructor
  · intro hne
    by_contra ht
    apply hne
    cases hc : can_box tr t
    · cases ho : ok_to_box tr t
      · rfl
      · rcases (hiff t).mp ho with h | h
        · rw [hc] at h
          cases h
        · exact absurd h ht
    · exact (hiff t).mpr (Or.inl hc)
  · intro ht
    subst ht
    rw [hcv, hov]
    decide

/-- C16 at a table of traits in which `IValue` has no constructor from `void`. -/
theorem ok_to_box_iff_can_box_or_void_witness :
    sampleTraits.is_constructible CType.void = false ∧
    ((∀ t : CType, ok_to_box sampleTraits t = true ↔
        can_box sampleTraits t = true ∨ t = CType.void) ∧
      (∀ t : CType, can_box sampleTraits t = true → ok_to_box sampleTraits t = true) ∧
      (∀ t : CType, ok_to_box sampleTraits t ≠ can_box sampleTraits t ↔ t = CType.void) ∧
      can_box sampleTraits CType.void = false ∧
      ok_to_box sampleTraits CType.void = true) :=
  ⟨rfl, ok_to_box_iff_can_box_or_void sampleTraits rfl⟩

/-- C15: for a result type without `supports_boxing_result` (an lvalue
reference, `IntArrayRef`, or a type that is not `ok_to_box`), `callBoxedFunc`
raises the internal assertion failure for every stack and every boxed kernel;
it performs no operation on the stack: the boxed kernel is not called and the
stack is left as it was. -/
theorem callBoxedFunc_unsupported_result (tr : IValueTraits) (ops : IValueOps IValue V)
    (result : CType) (boxed_kernel_func : InternalBoxedKernelFunction K H IValue)
    (functor : K) (opHandle : H) (stack : Frame IValue)
    (hsup : supports_boxing_result tr result = false) :
    (is_lvalue_reference result = true ∨ result = IntArrayRef ∨
      ok_to_box tr result = false) ∧
    (callBoxedFunc tr ops result boxed_kernel_func functor opHandle stack).outcome =
      (.error ⟨"Tried to call KernelFunction::callBoxedFunc() but return result cannot be boxed"⟩ :
        Except InternalAssertFailure (Ret V)) ∧
    (callBoxedFunc tr ops result boxed_kernel_func functor opHandle stack).trace =
      stack.trace ∧
    (∀ before after : List IValue, Event.invoke before after ∉ stack.trace →
      Event.invoke before after ∉
        (callBoxedFunc tr ops result boxed_kernel_func functor opHandle stack).trace) ∧
    callBoxedFunc_stack tr result boxed_kernel_func functor opHandle stack = stack := by
  have hrun : callBoxedFunc tr ops result boxed_kernel_func functor opHandle stack =
      { trace := stack.trace
        outcome := .error ⟨"Tried to call KernelFunction::callBoxedFunc() but return result cannot be boxed"⟩ } := by
    unfold callBoxedFunc
    simp only [hsup, Bool.not_false, if_true]
  refine ⟨?_, ?_, ?_, ?_, ?_⟩
  · simp only [supports_boxing_result, Bool.not_eq_false', Bool.or_eq_true,
      Bool.not_eq_true', beq_iff_eq] at hsup
    rcases hsup with (h | h) | h
    · exact Or.inl h
    · exact Or.inr (Or.inr h)
    · exact Or.inr (Or.inl h)
  · rw [hrun]
  · rw [hrun]
  · intro before after h
    rw [hrun]
    exact h
  · unfold callBoxedFunc_stack
    simp only [hsup, Bool.not_false, if_true]

/-- C15 at result type `at::Tensor&` on a stack of two tensors, with a kernel
that would replace them by one tensor: the call fails and logs nothing. -/
theorem callBoxedFunc_unsupported_result_witness :
    supports_boxing_result sampleTraits TensorRef = false ∧
    (callBoxedFunc sampleTraits sampleOps TensorRef (oneTensorKernel 9) () ()
      { stack := [.tensor 3, .tensor 4], trace := [] }).outcome =
      (.error ⟨"Tried to call KernelFunction::callBoxedFunc() but return result cannot be boxed"⟩ :
        Except InternalAssertFailure (Ret SampleVal)) ∧
    (callBoxedFunc sampleTraits sampleOps TensorRef (oneTensorKernel 9) () ()
      { stack := [.tensor 3, .tensor 4], trace := [] }).trace = [] ∧
    (callBoxedFunc_stack sampleTraits TensorRef (oneTensorKernel 9) () ()
      { stack := [.tensor 3, .tensor 4], trace := [] }).stack = [.tensor 3, .tensor 4] :=
  have h := callBoxedFunc_unsupported_result sampleTraits sampleOps TensorRef
    (oneTensorKernel 9) () () { stack := [.tensor 3, .tensor 4], trace := [] } (by decide)
  ⟨by decide, h.2.1, h.2.2.1, by rw [h.2.2.2.2]⟩

theorem callBoxedFunc_ok_iff_call_standard_ok (tr : IValueTraits) (ops : IValueOps IValue V)
    (result : CType) (boxed_kernel_func : InternalBoxedKernelFunction K H IValue)
    (functor : K) (opHandle : H) (args : List (Arg V)) (r : Ret V)
    (hsup : supports_boxing_result tr result = true) :
    (callBoxedFunc tr ops result boxed_kernel_func functor opHandle
        (push ops Frame.empty args)).outcome = .ok r ↔
      (call_standard ops result boxed_kernel_func functor opHandle args).outcome = .ok r := by
  have hst := push_empty_stack ops args
  have hafter : stackAfter ops boxed_kernel_func functor opHandle args =
      boxed_kernel_func functor opHandle (push ops Frame.empty args).stack := by
    rw [stackAfter, hst]
  by_cases hv : result = CType.void
  · subst hv
    rw [callBoxedFunc_void tr ops boxed_kernel_func functor opHandle _ hsup,
      call_standard_void, hafter]
    by_cases hlen :
      (boxed_kernel_func functor opHandle (push ops Frame.empty args).stack).length = 0
    · simp only [hlen, if_true]
    · simp only [hlen, if_false]
      constructor <;> intro h <;> cases h
  · by_cases hlen :
      (boxed_kernel_func functor opHandle (push ops Frame.empty args).stack).length = 1
    · obtain ⟨v, hv1⟩ := List.length_eq_one.mp hlen
      rw [callBoxedFunc_nonvoid_one tr ops result boxed_kernel_func functor opHandle _ v
          hsup hv hv1,
        call_standard_nonvoid_one ops result boxed_kernel_func functor opHandle args v hv
          (hafter.trans hv1)]
    · rw [callBoxedFunc_nonvoid_other tr ops result boxed_kernel_func functor opHandle _
          hsup hv hlen,
        call_standard_nonvoid_other ops result boxed_kernel_func functor opHandle args hv
          (by rw [hafter]; exact hlen)]
      constructor <;> intro h <;> cases h

theorem except_error_iff_not_ok {ε α : Type} (x : Except ε α) :
    (∃ e, x = .error e) ↔ ∀ r, x ≠ .ok r := by
  cases x with
  | error e => simp
  | ok a => simp

/-- C14: for a signature at which both `boxAndCallBoxedFunc` (enabled by
`supports_boxing`) and the `call` of the standard specialization are defined,
for all argument values and every boxed kernel, the two entry points perform
the same operations on their stack, handing the boxed kernel the same stack,
and end the same way: both return the same value or both fail with the
internal assertion failure. -/
theorem boxAndCallBoxedFunc_agrees_with_call (tr : IValueTraits) (ops : IValueOps IValue V)
    (result : CType) (boxed_kernel_func : InternalBoxedKernelFunction K H IValue)
    (functor : K) (opHandle : H) (args : List (Arg V))
    (hsup : supports_boxing tr result (args.map Arg.ty) = true)
    (hsel : select tr { result := result, args := args.map Arg.ty } = some .standard) :
    ∃ run1 run2,
      boxAndCallBoxedFunc tr ops result boxed_kernel_func functor opHandle args = some run1 ∧
      BoxedKernelWrapper.call tr ops result boxed_kernel_func functor opHandle args
        = some run2 ∧
      run1.trace = run2.trace ∧
      run1.trace = (boxedArgs ops args).map Event.push ++
        [Event.invoke (boxedArgs ops args)
          (stackAfter ops boxed_kernel_func functor opHandle args)] ∧
      (∀ r, run1.outcome = .ok r ↔ run2.outcome = .ok r) ∧
      ((∃ e, run1.outcome = .error e) ↔ (∃ e, run2.outcome = .error e)) := by
  have hres : supports_boxing_result tr result = true := by
    simp only [supports_boxing, Bool.and_eq_true] at hsup
    exact hsup.1
  have htrace : (callBoxedFunc tr ops result boxed_kernel_func functor opHandle
      (push ops Frame.empty args)).trace =
      (boxedArgs ops args).map Event.push ++
        [Event.invoke (boxedArgs ops args)
          (stackAfter ops boxed_kernel_func functor opHandle args)] := by
    rw [callBoxedFunc_trace tr ops result boxed_kernel_func functor opHandle _ hres,
      push_empty_stack, push_empty_trace, stackAfter]
  have hok := fun r => callBoxedFunc_ok_iff_call_standard_ok tr ops result boxed_kernel_func
    functor opHandle args r hres
  refine ⟨callBoxedFunc tr ops result boxed_kernel_func functor opHandle
      (push ops Frame.empty args),
    call_standard ops result boxed_kernel_func functor opHandle args, ?_, ?_, ?_, htrace,
    hok, ?_⟩
  · simp only [boxAndCallBoxedFunc, hsup, if_true]
  · simp only [BoxedKernelWrapper.call, hsel]
  · rw [htrace, call_standard_trace]
  · rw [except_error_iff_not_ok, except_error_iff_not_ok]
    constructor
    · intro h r hr
      exact h r ((hok r).mpr hr)
    · intro h r hr
      exact h r ((hok r).mp hr)

/-- C14 at `add(Tensor, Tensor) -> Tensor` with a kernel that leaves one
tensor (both entry points return it) and with one that leaves its two
arguments (both fail). -/
theorem boxAndCallBoxedFunc_agrees_with_call_witness :
    supports_boxing sampleTraits .tensor (addArgs.map Arg.ty) = true ∧
    select sampleTraits { result := .tensor, args := addArgs.map Arg.ty } = some .standard ∧
    (∃ run1 run2,
      boxAndCallBoxedFunc sampleTraits sampleOps .tensor (oneTensorKernel 9) () () addArgs
        = some run1 ∧
      BoxedKernelWrapper.call sampleTraits sampleOps .tensor (oneTensorKernel 9) () () addArgs
        = some run2 ∧
      run1.trace = run2.trace ∧
      run1.trace = (boxedArgs sampleOps addArgs).map Event.push ++
        [Event.invoke (boxedArgs sampleOps addArgs)
          (stackAfter sampleOps (oneTensorKernel 9) () () addArgs)] ∧
      (∀ r, run1.outcome = .ok r ↔ run2.outcome = .ok r) ∧
      ((∃ e, run1.outcome = .error e) ↔ (∃ e, run2.outcome = .error e))) ∧
    (∃ run1 run2,
      boxAndCallBoxedFunc sampleTraits sampleOps .tensor idleKernel () () addArgs
        = some run1 ∧
      BoxedKernelWrapper.call sampleTraits sampleOps .tensor idleKernel () () addArgs
        = some run2 ∧
      run1.outcome = .error ⟨"A boxed kernel should only push one return to the stack"⟩ ∧
      run2.outcome = .error
        ⟨"Boxed kernel was expected to push exactly one return value to the stack."⟩) :=
  ⟨by decide, by decide,
    boxAndCallBoxedFunc_agrees_with_call sampleTraits sampleOps .tensor (oneTensorKernel 9)
      () () addArgs (by decide) (by decide),
    ⟨_, _, rfl, rfl, rfl, rfl⟩⟩

theorem can_box_all_false_of_mem (tr : IValueTraits) (args : List CType) (a : CType)
    (ha : a ∈ args) (hb : can_box tr (decay a) = false) : can_box_all tr args = false := by
  cases h : can_box_all tr args
  · rfl
  · simp only [can_box_all, List.all_eq_true] at h
    rw [h a ha] at hb
    cases hb

theorem can_box_all_false_of_dimname (tr : IValueTraits) (args : List CType)
    (hd : dimname_unboxable tr = true) (h : has_dimname_arg args = true) :
    can_box_all tr args = false := by
  simp only [dimname_unboxable, Bool.and_eq_true, Bool.not_eq_true'] at hd
  obtain ⟨⟨h1, h2⟩, h3⟩ := hd
  simp only [has_dimname_arg, Bool.or_eq_true, List.any_eq_true, beq_iff_eq] at h
  rcases h with (⟨a, ha, hda⟩ | ⟨a, ha, hda⟩) | ⟨a, ha, hda⟩
  · exact can_box_all_false_of_mem tr args a ha (by rw [hda]; exact h1)
  · exact can_box_all_false_of_mem tr args a ha (by rw [hda]; exact h2)
  · exact can_box_all_false_of_mem tr args a ha (by rw [hda]; exact h3)

theorem can_box_all_false_of_quantizer (tr : IValueTraits) (args : List CType)
    (hq : quantizer_unboxable tr = true) (h : has_quantizer_arg args = true) :
    can_box_all tr args = false := by
  simp only [quantizer_unboxable, Bool.and_eq_true, Bool.not_eq_true'] at hq
  obtain ⟨h1, h2⟩ := hq
  simp only [has_quantizer_arg, Bool.or_eq_true, List.any_eq_true, beq_iff_eq] at h
  rcases h with ⟨a, ha, hda⟩ | ⟨a, ha, hda⟩
  · exact can_box_all_false_of_mem tr args a ha (by rw [hda]; exact h1)
  · exact can_box_all_false_of_mem tr args a ha (by rw [hda]; exact h2)

theorem supported_disabled_of_can_box_all_false (tr : IValueTraits) (sig : Signature)
    (h : can_box_all tr sig.args = false) :
    enabled tr sig .standard = false ∧ enabled tr sig .singleRef = false ∧
      enabled tr sig .tupleOfRefs = false := by
  refine ⟨by simp [enabled, h], ?_, by simp [enabled, h]⟩
  cases he : enabled tr sig .singleRef
  · rfl
  · have := ((enabled_singleRef_iff tr sig).mp he).1
    rw [h] at this
    cases this

theorem matching_of_one_trap (tr : IValueTraits) (sig : Signature)
    (hbox : can_box_all tr sig.args = false) :
    matching tr sig =
      (if has_dimname_arg sig.args then [Specialization.dimnameTrap] else []) ++
      (if has_quantizer_arg sig.args then [Specialization.quantizerTrap] else []) := by
  obtain ⟨h2, h3, h4⟩ := supported_disabled_of_can_box_all_false tr sig hbox
  have hd1 : enabled tr sig .dimnameTrap = has_dimname_arg sig.args := rfl
  have hq1 : enabled tr sig .quantizerTrap = has_quantizer_arg sig.args := rfl
  rw [matching_eq, h2, h3, h4, hd1, hq1]
  simp

theorem select_dimnameTrap_of_family (tr : IValueTraits) (sig : Signature)
    (hdu : dimname_unboxable tr = true)
    (hd : has_dimname_arg sig.args = true) (hq : has_quantizer_arg sig.args = false) :
    select tr sig = some .dimnameTrap := by
  rw [select_eq_some_iff,
    matching_of_one_trap tr sig (can_box_all_false_of_dimname tr sig.args hdu hd), hd, hq]
  rfl

theorem select_quantizerTrap_of_family (tr : IValueTraits) (sig : Signature)
    (hqu : quantizer_unboxable tr = true)
    (hd : has_dimname_arg sig.args = false) (hq : has_quantizer_arg sig.args = true) :
    select tr sig = some .quantizerTrap := by
  rw [select_eq_some_iff,
    matching_of_one_trap tr sig (can_box_all_false_of_quantizer tr sig.args hqu hq), hd, hq]
  rfl

theorem select_none_of_both_families (tr : IValueTraits) (sig : Signature)
    (hd : has_dimname_arg sig.args = true) (hq : has_quantizer_arg sig.args = true) :
    select tr sig = none := by
  have hd1 : enabled tr sig .dimnameTrap = true := hd
  have hq1 : enabled tr sig .quantizerTrap = true := hq
  unfold select
  rw [matching_eq, hd1, hq1]
  cases enabled tr sig .standard <;> cases enabled tr sig .singleRef <;>
    cases enabled tr sig .tupleOfRefs <;> simp

/-- C4: with the types of the two excluded families unboxable, as the header
says, `BoxedKernelWrapper::call` for a signature with arguments of exactly one
family exists, raises the internal assertion failure of that family and
performs no stack operation (no push, no call of the boxed kernel), for all
argument values and every boxed kernel.  For a signature with arguments of
both families both trap specializations are enabled and there is no `call`:
the program does not build, so no failure is raised at run time. -/
theorem trap_call_by_families (tr : IValueTraits) (ops : IValueOps IValue V)
    (result : CType) (boxed_kernel_func : InternalBoxedKernelFunction K H IValue)
    (functor : K) (opHandle : H) (args : List (Arg V))
    (hdu : dimname_unboxable tr = true) (hqu : quantizer_unboxable tr = true) :
    (has_dimname_arg (args.map Arg.ty) = true → has_quantizer_arg (args.map Arg.ty) = false →
      ∃ run,
        BoxedKernelWrapper.call tr ops result boxed_kernel_func functor opHandle args
          = some run ∧
        run.trace = [] ∧
        run.outcome = .error
          ⟨"Call to a boxed kernel with unboxable parameter type at::Dimname."⟩) ∧
    (has_dimname_arg (args.map Arg.ty) = false → has_quantizer_arg (args.map Arg.ty) = true →
      ∃ run,
        BoxedKernelWrapper.call tr ops result boxed_kernel_func functor opHandle args
          = some run ∧
        run.trace = [] ∧
        run.outcome = .error
          ⟨"Unboxed call to a boxed kernel with unboxable parameter type at::Quantizer."⟩) ∧
    (has_dimname_arg (args.map Arg.ty) = true → has_quantizer_arg (args.map Arg.ty) = true →
      BoxedKernelWrapper.call tr ops result boxed_kernel_func functor opHandle args = none) := by
  refine ⟨?_, ?_, ?_⟩
  · intro hd hq
    have hsel := select_dimnameTrap_of_family tr
      { result := result, args := args.map Arg.ty } hdu hd hq
    exact ⟨call_dimnameTrap, by simp only [BoxedKernelWrapper.call, hsel], rfl, rfl⟩
  · intro hd hq
    have hsel := select_quantizerTrap_of_family tr
      { result := result, args := args.map Arg.ty } hqu hd hq
    exact ⟨call_quantizerTrap, by simp only [BoxedKernelWrapper.call, hsel], rfl, rfl⟩
  · intro hd hq
    have hsel := select_none_of_both_families tr
      { result := result, args := args.map Arg.ty } hd hq
    simp only [BoxedKernelWrapper.call, hsel]

/-- C4 evaluated at `Tensor(Tensor, ArrayRef<Dimname>)`, where the call is the
dimension-name trap, and at `Tensor(Tensor, Dimname, intrusive_ptr<Quantizer>)`,
where there is no call. -/
theorem trap_call_by_families_witness :
    dimname_unboxable sampleTraits = true ∧ quantizer_unboxable sampleTraits = true ∧
    has_dimname_arg (dimnameArgs.map Arg.ty) = true ∧
    has_quantizer_arg (dimnameArgs.map Arg.ty) = false ∧
    (∃ run,
      BoxedKernelWrapper.call sampleTraits sampleOps .tensor idleKernel () () dimnameArgs
        = some run ∧
      run.trace = [] ∧
      run.outcome = .error
        ⟨"Call to a boxed kernel with unboxable parameter type at::Dimname."⟩) ∧
    has_dimname_arg (dimnameQuantizerArgs.map Arg.ty) = true ∧
    has_quantizer_arg (dimnameQuantizerArgs.map Arg.ty) = true ∧
    BoxedKernelWrapper.call sampleTraits sampleOps .tensor idleKernel () ()
      dimnameQuantizerArgs = none :=
  ⟨by decide, by decide, by decide, by decide,
    (trap_call_by_families sampleTraits sampleOps .tensor idleKernel () () dimnameArgs
      (by decide) (by decide)).1 (by decide) (by decide),
    by decide, by decide,
    (trap_call_by_families sampleTraits sampleOps .tensor idleKernel () ()
      dimnameQuantizerArgs (by decide) (by decide)).2.2 (by decide) (by decide)⟩

theorem CTypes.toList_ofList : (l : List CType) → (CTypes.ofList l).toList = l
  | [] => rfl
  | t :: l => by
    simp only [CTypes.ofList, CTypes.toList, List.cons.injEq, true_and]
    exact CTypes.toList_ofList l

theorem getElem?_of_take_eq_replicate {α : Type} (l : List α) (n : Nat) (x : α)
    (h : l.take n = List.replicate n x) : ∀ i, i < n → l[i]? = some x := by
  intro i hi
  have h1 : (l.take n)[i]? = l[i]? := by
    rw [List.getElem?_take]
    simp [hi]
  rw [← h1, h]
  simp [List.getElem?_replicate, hi]

theorem refs_of_tuple_static_assert (result : CType) (args : List CType)
    (htup : is_tuple_of_tensor_refs result = true)
    (hsa : tuple_static_assert result args = true) :
    ∀ i, i < tuple_size result → args[i]? = some TensorRef := by
  cases result with
  | tuple ts =>
    simp only [is_tuple_of_tensor_refs] at htup
    simp only [tuple_static_assert, tuple_size, tuple_take, beq_iff_eq, CType.tuple.injEq] at hsa
    simp only [tuple_size]
    have h1 : ts.toList = args.take ts.toList.length := by
      conv_lhs => rw [hsa]
      exact CTypes.toList_ofList _
    have h2 := all_tensor_refs_toList ts htup
    exact getElem?_of_take_eq_replicate args _ TensorRef (h1.symm.trans h2)
  | _ => simp [is_tuple_of_tensor_refs] at htup

theorem call_of_tuple_result (tr : IValueTraits) (ops : IValueOps IValue V)
    (result : CType) (boxed_kernel_func : InternalBoxedKernelFunction K H IValue)
    (functor : K) (opHandle : H) (args : List (Arg V))
    (htup : is_tuple_of_tensor_refs result = true)
    (hsa : tuple_static_assert result (args.map Arg.ty) = false) :
    BoxedKernelWrapper.call tr ops result boxed_kernel_func functor opHandle args = none ∨
    (select tr { result := result, args := args.map Arg.ty } = some .dimnameTrap ∧
      BoxedKernelWrapper.call tr ops result boxed_kernel_func functor opHandle args =
        some call_dimnameTrap) ∨
    (select tr { result := result, args := args.map Arg.ty } = some .quantizerTrap ∧
      BoxedKernelWrapper.call tr ops result boxed_kernel_func functor opHandle args =
        some call_quantizerTrap) := by
  cases hsel : select tr { result := result, args := args.map Arg.ty } with
  | none =>
    left
    simp only [BoxedKernelWrapper.call, hsel]
  | some s =>
    have hen := select_eq_some_enabled tr _ _ hsel
    cases s with
    | dimnameTrap =>
      right; left
      exact ⟨rfl, by simp only [BoxedKernelWrapper.call, hsel]⟩
    | quantizerTrap =>
      right; right
      exact ⟨rfl, by simp only [BoxedKernelWrapper.call, hsel]⟩
    | standard =>
      simp [enabled, htup] at hen
    | singleRef =>
      have hres := ((enabled_singleRef_iff tr _).mp hen).2.1
      simp only at hres
      rw [hres] at htup
      simp [TensorRef, is_tuple_of_tensor_refs] at htup
    | tupleOfRefs =>
      left
      simp [BoxedKernelWrapper.call, hsel, hsa]

/-- C12 fails at `std::tuple<Tensor&>(Dimname)`: the result is a tuple of one
Tensor reference, the first parameter is not a Tensor reference, and the
signature is not rejected: it instantiates the dimension-name trap, whose
`call` exists and raises at run time. -/
theorem tupleOfRefs_mismatch_counterexample :
    is_tuple_of_tensor_refs TensorRefSingle = true ∧
    ¬ (∀ i, i < tuple_size TensorRefSingle →
        (oneDimnameArgs.map Arg.ty)[i]? = some TensorRef) ∧
    select sampleTraits { result := TensorRefSingle, args := oneDimnameArgs.map Arg.ty }
      = some .dimnameTrap ∧
    BoxedKernelWrapper.call sampleTraits sampleOps TensorRefSingle idleKernel () ()
      oneDimnameArgs = some call_dimnameTrap := by
  have hsel : select sampleTraits
      { result := TensorRefSingle, args := oneDimnameArgs.map Arg.ty } = some .dimnameTrap := by
    decide
  refine ⟨by decide, ?_, hsel, ?_⟩
  · intro h
    have h0 := h 0 (by decide)
    exact absurd h0 (by decide)
  · simp only [BoxedKernelWrapper.call, hsel]

/-- C12, amended: a signature whose result is a tuple of `N` Tensor references
but whose parameter list does not begin with `N` Tensor-reference parameters
fails the `static_assert` of the tuple-of-references `call`.  It has no `call`
(a build error) when it satisfies the enabling condition of the
tuple-of-references specialization, and when it has no argument of the
dimension-name or quantizer family; the only `call` it can have is that of a
trap specialization, which raises the internal assertion failure, so it never
yields a tuple at run time.  When it has arguments of exactly one of the two
families, whose types are unboxable as the header says, it has the `call` of
that family's trap. -/
theorem tupleOfRefs_mismatch_not_callable (tr : IValueTraits) (ops : IValueOps IValue V)
    (result : CType) (boxed_kernel_func : InternalBoxedKernelFunction K H IValue)
    (functor : K) (opHandle : H) (args : List (Arg V))
    (htup : is_tuple_of_tensor_refs result = true)
    (hbad : ¬ (∀ i, i < tuple_size result → (args.map Arg.ty)[i]? = some TensorRef)) :
    tuple_static_assert result (args.map Arg.ty) = false ∧
    (enabled tr { result := result, args := args.map Arg.ty } .tupleOfRefs = true →
      BoxedKernelWrapper.call tr ops result boxed_kernel_func functor opHandle args = none) ∧
    (has_dimname_arg (args.map Arg.ty) = false → has_quantizer_arg (args.map Arg.ty) = false →
      BoxedKernelWrapper.call tr ops result boxed_kernel_func functor opHandle args = none) ∧
    (∀ run,
      BoxedKernelWrapper.call tr ops result boxed_kernel_func functor opHandle args = some run →
      run = call_dimnameTrap ∨ run = call_quantizerTrap) ∧
    (∀ run r,
      BoxedKernelWrapper.call tr ops result boxed_kernel_func functor opHandle args = some run →
      run.outcome ≠ .ok r) ∧
    (dimname_unboxable tr = true → has_dimname_arg (args.map Arg.ty) = true →
      has_quantizer_arg (args.map Arg.ty) = false →
      BoxedKernelWrapper.call tr ops result boxed_kernel_func functor opHandle args =
        some call_dimnameTrap) ∧
    (quantizer_unboxable tr = true → has_dimname_arg (args.map Arg.ty) = false →
      has_quantizer_arg (args.map Arg.ty) = true →
      BoxedKernelWrapper.call tr ops result boxed_kernel_func functor opHandle args =
        some call_quantizerTrap) := by
  have hsa : tuple_static_assert result (args.map Arg.ty) = false := by
    cases h : tuple_static_assert result (args.map Arg.ty)
    · rfl
    · exact absurd (refs_of_tuple_static_assert result _ htup h) hbad
  have hcall := call_of_tuple_result tr ops result boxed_kernel_func functor opHandle args
    htup hsa
  have hruns : ∀ run,
      BoxedKernelWrapper.call tr ops result boxed_kernel_func functor opHandle args = some run →
      run = call_dimnameTrap ∨ run = call_quantizerTrap := by
    intro run hrun
    rcases hcall with h | ⟨_, h⟩ | ⟨_, h⟩
    · rw [h] at hrun
      cases hrun
    · rw [h] at hrun
      exact Or.inl (Option.some.inj hrun).symm
    · rw [h] at hrun
      exact Or.inr (Option.some.inj hrun).symm
  refine ⟨hsa, ?_, ?_, hruns, ?_, ?_, ?_⟩
  · intro hen
    rcases hcall with h | ⟨hsel, _⟩ | ⟨hsel, _⟩
    · exact h
    · have := select_of_enabled tr _ .tupleOfRefs _ hen hsel
      cases this
    · have := select_of_enabled tr _ .tupleOfRefs _ hen hsel
      cases this
  · intro hd hq
    rcases hcall with h | ⟨hsel, _⟩ | ⟨hsel, _⟩
    · exact h
    · have hen := select_eq_some_enabled tr _ _ hsel
      simp only [enabled] at hen
      rw [hd] at hen
      cases hen
    · have hen := select_eq_some_enabled tr _ _ hsel
      simp only [enabled] at hen
      rw [hq] at hen
      cases hen
  · intro run r hrun
    rcases hruns run hrun with h | h <;> subst h <;> intro hr <;> cases hr
  · intro hdu hd hq
    have hsel := select_dimnameTrap_of_family tr
      { result := result, args := args.map Arg.ty } hdu hd hq
    simp only [BoxedKernelWrapper.call, hsel]
  · intro hqu hd hq
    have hsel := select_quantizerTrap_of_family tr
      { result := result, args := args.map Arg.ty } hqu hd hq
    simp only [BoxedKernelWrapper.call, hsel]

/-- The amended C12 at `std::tuple<Tensor&, Tensor&>(Tensor&, int64_t)`: the
second parameter is not a Tensor reference, the signature instantiates the
tuple-of-references specialization, and it has no `call`. -/
theorem tupleOfRefs_mismatch_not_callable_witness :
    is_tuple_of_tensor_refs TensorRefPair = true ∧
    ¬ (∀ i, i < tuple_size TensorRefPair → (oneOutArgs.map Arg.ty)[i]? = some TensorRef) ∧
    select sampleTraits { result := TensorRefPair, args := oneOutArgs.map Arg.ty }
      = some .tupleOfRefs ∧
    tuple_static_assert TensorRefPair (oneOutArgs.map Arg.ty) = false ∧
    BoxedKernelWrapper.call sampleTraits sampleOps TensorRefPair idleKernel () () oneOutArgs
      = none :=
  have hbad : ¬ (∀ i, i < tuple_size TensorRefPair →
      (oneOutArgs.map Arg.ty)[i]? = some TensorRef) := by
    intro h
    have h1 := h 1 (by decide)
    exact absurd h1 (by decide)
  have h := tupleOfRefs_mismatch_not_callable sampleTraits sampleOps TensorRefPair idleKernel
    () () oneOutArgs (by decide) hbad
  ⟨by decide, hbad, by decide, h.1, h.2.1 (by decide)⟩

end Claims

end Boxing
